import Mathlib

/-!
Verification development for the dental-education interpretation pipeline:
a shallow embedding of `app/agent.py`, `app/scenario_manager.py` and
`app/mock_responses.py`, together with theorems settling the spec claims.

Conventions of the embedding:
* Python values are modelled by `PyVal` (numbers as `Int`; the pipeline never
  relies on float-specific behaviour for the properties proved here).
* Python dicts are insertion-ordered association lists; `dictSet` updates a
  present key in place and appends an absent one, matching CPython semantics.
* External capabilities (the language-model call, the rule evaluator, the
  second evaluator) are oracles passed in as `Except`-valued parameters: an
  `Except.error` models the call raising, with the exception text as payload.
* A function that can raise an uncaught exception is modelled with an
  `Except String` codomain; functions whose bodies catch everything are total.
-/

namespace DentalEdu

/-- Model of a Python/JSON value as it flows through the pipeline. -/
inductive PyVal where
  | none
  | bool (b : Bool)
  | int (n : Int)
  | str (s : String)
  | list (xs : List PyVal)
  | dict (xs : List (String × PyVal))

/-- A Python dict: insertion-ordered association list. -/
abbrev Dict := List (String × PyVal)

/-- `d.get(k)` on a dict: first binding of `k`, `Option.none` when absent. -/
def dictGet (k : String) : Dict → Option PyVal
  | [] => Option.none
  | (k2, v) :: rest => if k2 = k then some v else dictGet k rest

/-- `d[k] = v` on a dict: replace the first binding in place, else append. -/
def dictSet (k : String) (v : PyVal) : Dict → Dict
  | [] => [(k, v)]
  | (k2, w) :: rest => if k2 = k then (k, v) :: rest else (k2, w) :: dictSet k v rest

/-- `old.update(new)` on dicts: shallow merge, new keys win. -/
def pyDictUpdate (old new : Dict) : Dict :=
  new.foldl (fun acc kv => dictSet kv.1 kv.2 acc) old

/-- Python truthiness of a value. -/
def pyTruthy : PyVal → Bool
  | .none => false
  | .bool b => b
  | .int n => n != 0
  | .str s => s != ""
  | .list xs => !xs.isEmpty
  | .dict xs => !xs.isEmpty

/-- `a or b` on Python values. -/
def pyOr (a b : PyVal) : PyVal := if pyTruthy a then a else b

/-- `isinstance(v, dict)`. -/
def isDict : PyVal → Bool
  | .dict _ => true
  | _ => false

/-- `isinstance(v, (int, float))`: numeric check; Python's `bool` is an
`int` subclass, so booleans count as numeric (`True` behaves as 1). -/
def pyNum? : PyVal → Option Int
  | .int n => some n
  | .bool b => some (if b then 1 else 0)
  | _ => Option.none

/-- The per-learner state: a Python dict. -/
abbrev StateD := Dict

/-- The global `_STUDENT_STATES` store: learner id to state dict. -/
abbrev Store := List (String × StateD)

/-- Lookup of a learner's state in the store. -/
def storeGet (sid : String) : Store → Option StateD
  | [] => Option.none
  | (k, st) :: rest => if k = sid then some st else storeGet sid rest

/-- Write a learner's state into the store (replace in place or append). -/
def storePut (sid : String) (st : StateD) : Store → Store
  | [] => [(sid, st)]
  | (k, w) :: rest => if k = sid then (sid, st) :: rest else (k, w) :: storePut sid st rest

/-! ### Python string helpers -/

/-- Whitespace for `str.strip()` (the ASCII repertoire used by the code). -/
def isPyWS (c : Char) : Bool :=
  c = ' ' ∨ c = '\t' ∨ c = '\n' ∨ c = '\r' ∨ c = '\x0b' ∨ c = '\x0c'

/-- `strip()` on a character list: drop leading and trailing whitespace. -/
def stripL (cs : List Char) : List Char :=
  ((cs.dropWhile isPyWS).reverse.dropWhile isPyWS).reverse

/-- `str.strip()`. -/
def pyStrip (s : String) : String := String.mk (stripL s.toList)

/-- `needle in hay` on strings, as lists of characters. -/
def containsSub (hay needle : List Char) : Bool :=
  if needle.isPrefixOf hay then true
  else match hay with
    | [] => needle = []
    | _ :: rest => containsSub rest needle

/-- `needle in hay` on strings. -/
def strContains (hay needle : String) : Bool := containsSub hay.toList needle.toList

/-- One character of `str.lower()`: ASCII letters plus the Turkish letters the
code's keyword tables use; all other characters are left unchanged (the inputs
considered here contain no other cased characters).  `İ` lowers to a two-char
sequence in Python, hence the list codomain. -/
def pyLowerChar (c : Char) : List Char :=
  if 'A' ≤ c ∧ c ≤ 'Z' then [Char.ofNat (c.toNat + 32)]
  else if c = 'Ç' then ['ç']
  else if c = 'Ğ' then ['ğ']
  else if c = 'Ö' then ['ö']
  else if c = 'Ş' then ['ş']
  else if c = 'Ü' then ['ü']
  else if c = 'İ' then ['i', '̇']
  else [c]

/-- `str.lower()`. -/
def pyLower (s : String) : String := String.mk (s.toList.flatMap pyLowerChar)

/-- `str.replace(a, b)` for single-character patterns (as used by the code:
`matched_action.replace('_', ' ')`). -/
def pyReplaceChar (a b : Char) (s : String) : String :=
  String.mk (s.toList.map (fun c => if c = a then b else c))

/-- One step of `str.title()`: uppercase a letter that starts an alphabetic
run, lowercase the rest of the run. -/
def titleGo : Bool → List Char → List Char
  | _, [] => []
  | prevAlpha, c :: rest =>
    if c.isAlpha then
      (if prevAlpha then c.toLower else c.toUpper) :: titleGo true rest
    else
      c :: titleGo false rest

/-- `str.title()`. -/
def pyTitle (s : String) : String := String.mk (titleGo false s.toList)

/-! ### `json.loads`

A recursive-descent JSON reader modelling Python's `json.loads`.  Numbers are
read as integers (a fraction or exponent is consumed syntactically and the
value approximated by its integer part; no claim depends on non-integer
values).  Failure is `Option.none`, modelling `json.JSONDecodeError`. -/

/-- JSON whitespace accepted between tokens by `json.loads`. -/
def isJsonWS (c : Char) : Bool := c = ' ' || c = '\t' || c = '\n' || c = '\r'

/-- Skip JSON whitespace. -/
def skipJsonWS (cs : List Char) : List Char := cs.dropWhile isJsonWS

/-- Hex digit test for `\uXXXX` escapes. -/
def isHexDig (c : Char) : Bool :=
  c.isDigit || ('a' ≤ c && c ≤ 'f') || ('A' ≤ c && c ≤ 'F')

/-- Hex digit value. -/
def hexVal (c : Char) : Nat :=
  if c.isDigit then c.toNat - 48
  else if 'a' ≤ c && c ≤ 'f' then c.toNat - 87
  else c.toNat - 55

/-- Consume an expected literal tail (as in `true`, `false`, `null`). -/
def dropLit (lit cs : List Char) : Option (List Char) :=
  if lit.isPrefixOf cs then some (cs.drop lit.length) else Option.none

/-- Decoded character of a single-letter JSON escape. -/
def escChar : Char → Option Char
  | '"' => some '"'
  | '\\' => some '\\'
  | '/' => some '/'
  | 'b' => some '\x08'
  | 'f' => some '\x0c'
  | 'n' => some '\n'
  | 'r' => some '\r'
  | 't' => some '\t'
  | _ => Option.none

/-- Parse the body of a JSON string after the opening quote; returns the
decoded characters and the remainder after the closing quote.  Raw control
characters are rejected, as in strict-mode `json.loads`. -/
def parseJsonStr : List Char → Option (List Char × List Char)
  | [] => Option.none
  | '"' :: rest => some ([], rest)
  | '\\' :: 'u' :: h1 :: h2 :: h3 :: h4 :: rest =>
    if isHexDig h1 && isHexDig h2 && isHexDig h3 && isHexDig h4 then
      (parseJsonStr rest).map (fun p =>
        (Char.ofNat (((hexVal h1 * 16 + hexVal h2) * 16 + hexVal h3) * 16 + hexVal h4) :: p.1, p.2))
    else Option.none
  | '\\' :: e :: rest =>
    match escChar e with
    | some c => (parseJsonStr rest).map (fun p => (c :: p.1, p.2))
    | Option.none => Option.none
  | c :: rest =>
    if c.toNat < 32 then Option.none
    else (parseJsonStr rest).map (fun p => (c :: p.1, p.2))

/-- Consume an optional JSON fraction part. -/
def consumeFrac (cs : List Char) : Option (List Char) :=
  match cs with
  | '.' :: r =>
    let p : List Char × List Char := r.span Char.isDigit
    if p.1.isEmpty then Option.none else some p.2
  | _ => some cs

/-- Consume an optional JSON exponent part. -/
def consumeExp (cs : List Char) : Option (List Char) :=
  match cs with
  | c :: r =>
    if c = 'e' || c = 'E' then
      let r2 := match r with
        | s :: r3 => if s = '+' || s = '-' then r3 else s :: r3
        | [] => []
      let p : List Char × List Char := r2.span Char.isDigit
      if p.1.isEmpty then Option.none else some p.2
    else some cs
  | [] => some cs

/-- Parse a JSON number (integer value; see module comment). -/
def parseJsonNum (cs : List Char) : Option (Int × List Char) :=
  let sgn : Bool × List Char := match cs with
    | '-' :: r => (true, r)
    | _ => (false, cs)
  let p : List Char × List Char := sgn.2.span Char.isDigit
  if p.1.isEmpty then Option.none
  else if p.1.length > 1 && p.1.head? = some '0' then Option.none
  else
    let n : Nat := p.1.foldl (fun a c => a * 10 + (c.toNat - 48)) 0
    (consumeFrac p.2).bind (fun cs3 =>
      (consumeExp cs3).map (fun cs4 =>
        ((if sgn.1 then -(n : Int) else (n : Int)), cs4)))

mutual

/-- Parse one JSON value (fuelled; the top-level entry supplies ample fuel). -/
def parseJsonVal : Nat → List Char → Option (PyVal × List Char)
  | 0, _ => Option.none
  | fuel + 1, cs =>
    match skipJsonWS cs with
    | [] => Option.none
    | c :: rest =>
      if c = '"' then
        (parseJsonStr rest).map (fun p => (PyVal.str (String.mk p.1), p.2))
      else if c = '{' then
        match skipJsonWS rest with
        | '}' :: r2 => some (PyVal.dict [], r2)
        | r2 => (parseJsonMembers fuel r2).map (fun p => (PyVal.dict p.1, p.2))
      else if c = '[' then
        match skipJsonWS rest with
        | ']' :: r2 => some (PyVal.list [], r2)
        | r2 => (parseJsonItems fuel r2).map (fun p => (PyVal.list p.1, p.2))
      else if c = 't' then
        (dropLit "rue".toList rest).map (fun r => (PyVal.bool true, r))
      else if c = 'f' then
        (dropLit "alse".toList rest).map (fun r => (PyVal.bool false, r))
      else if c = 'n' then
        (dropLit "ull".toList rest).map (fun r => (PyVal.none, r))
      else
        (parseJsonNum (c :: rest)).map (fun p => (PyVal.int p.1, p.2))

/-- Parse the members of a JSON object after `{` (at least one member). -/
def parseJsonMembers : Nat → List Char → Option (Dict × List Char)
  | 0, _ => Option.none
  | fuel + 1, cs =>
    match skipJsonWS cs with
    | '"' :: r1 =>
      match parseJsonStr r1 with
      | some (k, r2) =>
        (match skipJsonWS r2 with
          | ':' :: r3 =>
            match parseJsonVal fuel r3 with
            | some (v, r4) =>
              (match skipJsonWS r4 with
                | ',' :: r5 =>
                  (parseJsonMembers fuel r5).map (fun p => ((String.mk k, v) :: p.1, p.2))
                | '}' :: r5 => some ([(String.mk k, v)], r5)
                | _ => Option.none)
            | Option.none => Option.none
          | _ => Option.none)
      | Option.none => Option.none
    | _ => Option.none

/-- Parse the items of a JSON array after `[` (at least one item). -/
def parseJsonItems : Nat → List Char → Option (List PyVal × List Char)
  | 0, _ => Option.none
  | fuel + 1, cs =>
    match parseJsonVal fuel cs with
    | some (v, r1) =>
      (match skipJsonWS r1 with
        | ',' :: r2 => (parseJsonItems fuel r2).map (fun p => (v :: p.1, p.2))
        | ']' :: r2 => some ([v], r2)
        | _ => Option.none)
    | Option.none => Option.none

end

/-- `json.loads` on a character list: one value, optionally surrounded by
whitespace, with nothing after it. -/
def jsonLoadsL (cs : List Char) : Option PyVal :=
  match parseJsonVal (2 * cs.length + 2) cs with
  | some (v, rest) => if (skipJsonWS rest).isEmpty then some v else Option.none
  | Option.none => Option.none

/-- `json.loads` on a string. -/
def jsonLoads? (s : String) : Option PyVal := jsonLoadsL s.toList

/-! ### `_extract_first_json_block` (agent.py)

The function tries, in order: direct parse of the stripped text; the first
match of the fenced pattern marked `json`; the first match of the generic
fenced pattern; the first greedy brace span (unvalidated).  The two fence
regexes have the shape `MARKER \s* ( \x7b .*? \x7d ) \s* BACKTICKS` with
DOTALL, searched leftmost; the helpers below implement exactly that search. -/

/-- Regex `\s` whitespace class (ASCII repertoire). -/
def isRegexWS (c : Char) : Bool :=
  c = ' ' || c = '\t' || c = '\n' || c = '\r' || c = '\x0b' || c = '\x0c'

/-- After a candidate's closing brace, the pattern requires `\s*` then three
backticks. -/
def fenceCloses (cs : List Char) : Bool :=
  ("```".toList).isPrefixOf (cs.dropWhile isRegexWS)

/-- Scan for the non-greedy closing brace of the fenced candidate: the first
`\x7d` whose tail passes `fenceCloses` ends the candidate (`.*?` semantics);
`acc` holds the consumed characters in reverse. -/
def braceCand (acc : List Char) : List Char → Option (List Char)
  | [] => Option.none
  | c :: rest =>
    if c = '}' && fenceCloses rest then some (acc.reverse ++ ['}'])
    else braceCand (c :: acc) rest

/-- Attempt the fenced pattern at the position just after the marker: `\s*`
then an opening brace, then the non-greedy brace span. -/
def fenceFrom (cs : List Char) : Option (List Char) :=
  match cs.dropWhile isRegexWS with
  | '{' :: rest => braceCand ['{'] rest
  | _ => Option.none

/-- Leftmost regex search: try the fenced pattern at every start position in
order, as `re.search` does. -/
def searchFence (marker : List Char) : List Char → Option (List Char)
  | [] => Option.none
  | c :: rest =>
    match (if marker.isPrefixOf (c :: rest) then fenceFrom ((c :: rest).drop marker.length)
           else Option.none) with
    | some cand => some cand
    | Option.none => searchFence marker rest

/-- Suffix starting at the first occurrence of `c`. -/
def suffixFrom (c : Char) : List Char → Option (List Char)
  | [] => Option.none
  | x :: r => if x = c then some (x :: r) else suffixFrom c r

/-- The greedy pattern `( \x7b .* \x7d )` with DOTALL: from the first opening
brace to the last closing brace of the whole text. -/
def greedyBrace (cs : List Char) : Option (List Char) :=
  match suffixFrom '{' cs with
  | Option.none => Option.none
  | some s =>
    match suffixFrom '}' s.reverse with
    | Option.none => Option.none
    | some t => some t.reverse

/-- Heuristic 3 of the extractor: the greedy brace span, returned stripped and
unvalidated. -/
def extractGreedy (t : List Char) : Option String :=
  match greedyBrace t with
  | some cand => some (String.mk (stripL cand))
  | Option.none => Option.none

/-- Heuristic 2 of the extractor: the first generic fenced candidate, kept
only if it loads; otherwise fall through to the greedy heuristic. -/
def extractAnyFence (t : List Char) : Option String :=
  match searchFence "```".toList t with
  | some cand =>
    if (jsonLoadsL (stripL cand)).isSome then some (String.mk (stripL cand))
    else extractGreedy t
  | Option.none => extractGreedy t

/-- `_extract_first_json_block` from agent.py: direct parse of the stripped
text, then the JSON-marked fence, then any fence, then the greedy span. -/
def _extract_first_json_block (text : String) : Option String :=
  if (jsonLoadsL (stripL text.toList)).isSome then some (String.mk (stripL text.toList))
  else
    match searchFence "```json".toList (stripL text.toList) with
    | some cand =>
      if (jsonLoadsL (stripL cand)).isSome then some (String.mk (stripL cand))
      else extractAnyFence (stripL text.toList)
    | Option.none => extractAnyFence (stripL text.toList)

/-! ### `mock_responses.py` -/

/-- `TURKISH_ACTION_MAP`: keyword to action key, in insertion order (the first
matching keyword in iteration order wins). -/
def turkishActionMap : List (String × String) :=
  [("ateş", "check_vital_signs"),
   ("ateşini", "check_vital_signs"),
   ("vital", "check_vital_signs"),
   ("muayene", "perform_oral_exam"),
   ("oral muayene", "perform_oral_exam"),
   ("ağız muayene", "perform_oral_exam"),
   ("ekstraoral", "perform_extraoral_exam"),
   ("paterji", "perform_pathergy_test"),
   ("paterji test", "perform_pathergy_test"),
   ("seroloji", "request_serology_tests"),
   ("kan testi", "request_serology_tests"),
   ("vdrl", "request_serology_tests"),
   ("tpha", "request_serology_tests"),
   ("sistemik", "ask_systemic_symptoms"),
   ("sistemik semptom", "ask_systemic_symptoms"),
   ("tıbbi geçmiş", "gather_medical_history"),
   ("alerji", "check_allergies_meds"),
   ("ilaç", "check_allergies_meds"),
   ("antibiyotik", "prescribe_antibiotics"),
   ("destekleyici tedavi", "prescribe_palliative_care"),
   ("palyatif", "prescribe_palliative_care"),
   ("herpes tanı", "diagnose_herpetic_gingivostomatitis"),
   ("behçet tanı", "diagnose_behcet_disease"),
   ("sifiliz tanı", "diagnose_secondary_syphilis")]

/-- The "clinical verb" keywords deciding `ACTION` versus `CHAT`. -/
def clinicalKeywords : List String :=
  ["yap", "ölç", "sorgula", "başlat", "test", "muayene", "tanı", "reçete"]

/-- First matching entry of the action table, else `unspecified_action`. -/
def matchedAction (rawLower : String) : String :=
  match turkishActionMap.find? (fun p => strContains rawLower p.1) with
  | some p => p.2
  | Option.none => "unspecified_action"

/-- `any(kw in raw_lower for kw in clinical_keywords)`. -/
def isClinicalInput (rawLower : String) : Bool :=
  clinicalKeywords.any (fun kw => strContains rawLower kw)

/-- `get_mock_interpretation` from mock_responses.py. -/
def get_mock_interpretation (raw_action : String) : Dict :=
  let rawLower := pyLower raw_action
  let matched := matchedAction rawLower
  if isClinicalInput rawLower then
    [("intent_type", .str "ACTION"),
     ("interpreted_action", .str matched),
     ("clinical_intent", .str "diagnosis_gathering"),
     ("priority", .str "medium"),
     ("safety_concerns", .list []),
     ("explanatory_feedback", .str ("Eylem yorumlandı: " ++ pyTitle (pyReplaceChar '_' ' ' matched))),
     ("structured_args", .dict [])]
  else
    [("intent_type", .str "CHAT"),
     ("interpreted_action", .str "general_chat"),
     ("clinical_intent", .str "other"),
     ("priority", .str "low"),
     ("safety_concerns", .list []),
     ("explanatory_feedback", .str "Sohbet modu. Klinik eylemlere odaklanın."),
     ("structured_args", .dict [])]

/-! ### `scenario_manager.py` -/

/-- The `ScenarioManager` after construction: the loaded catalog and the
default case id (`"olp_001"` unless overwritten from the first case). -/
structure SM where
  caseData : List PyVal
  defaultCaseId : String

/-- The catalog list read out of the parsed resource: a bare list, a dict
with a `cases` list, or empty otherwise. -/
def catalogOf (data : PyVal) : List PyVal :=
  match data with
  | .list l => l
  | .dict d =>
    match dictGet "cases" d with
    | some (.list l) => l
    | _ => []
  | _ => []

/-- The default case id taken from the first case when it carries a non-empty
string `case_id`. -/
def defaultIdOf (fc : Dict) : String :=
  match dictGet "case_id" fc with
  | some (.str s) => if s ≠ "" then s else "olp_001"
  | _ => "olp_001"

/-- `ScenarioManager.__init__` / `_load_cases`, given the outcome of reading
and JSON-parsing the catalog resource (`Option.none` models a missing file or
a parse error, both caught and yielding the empty catalog).  The result is
`Option.none` when the constructor itself raises, which happens exactly when
the catalog is non-empty and its first case is not a dict (the uncaught
`first_case.get` there). -/
def mkScenarioManager (parsed : Option PyVal) : Option SM :=
  match parsed with
  | Option.none => some ⟨[], "olp_001"⟩
  | some data =>
    match catalogOf data with
    | [] => some ⟨[], "olp_001"⟩
    | c :: rest =>
      match c with
      | .dict fc => some ⟨c :: rest, defaultIdOf fc⟩
      | _ => Option.none

/-- Well-formedness of the catalog head: empty catalog, or a dict first case.
Every manager produced by `mkScenarioManager` satisfies this; theorems about
`getState` assume it because `get_state` would raise otherwise. -/
def caseHeadWF (m : SM) : Bool :=
  match m.caseData with
  | [] => true
  | .dict _ :: _ => true
  | _ => false

/-- The first case as a dict; `\x7b\x7d` when the catalog is empty (a non-dict
head cannot occur for a successfully constructed manager). -/
def firstCaseD (m : SM) : Dict :=
  match m.caseData with
  | .dict fc :: _ => fc
  | _ => []

/-- `case_id` seeded into a fresh state: `first_case.get("case_id") or
self._default_case_id` (a falsy value falls back to the default). -/
def freshCaseIdVal (m : SM) : PyVal :=
  match dictGet "case_id" (firstCaseD m) with
  | some v => if pyTruthy v then v else .str m.defaultCaseId
  | Option.none => .str m.defaultCaseId

/-- The two seed entries of every fresh state. -/
def freshStateBase (m : SM) : StateD :=
  [("case_id", freshCaseIdVal m), ("current_score", .int 0)]

/-- Copy the first case's patient block into the fresh state when it is
present and a dict. -/
def withPatient (fc : Dict) (st : StateD) : StateD :=
  match dictGet "patient" fc with
  | some (.dict p) => st ++ [("patient", .dict p)]
  | _ => st

/-- Copy the first case's name into the fresh state when it is present and a
string. -/
def withCaseName (fc : Dict) (st : StateD) : StateD :=
  match dictGet "name" fc with
  | some (.str n) => st ++ [("case_name", .str n)]
  | _ => st

/-- The state created on first access for an unseen learner. -/
def freshState (m : SM) : StateD :=
  withCaseName (firstCaseD m) (withPatient (firstCaseD m) (freshStateBase m))

/-- `ScenarioManager.get_state`: return the stored state, or lazily create one
seeded from the first catalog case.  Returns the state together with the
updated global store (the returned dict is the one stored, so writes to it by
the caller are modelled as explicit `storePut`s). -/
def getState (m : SM) (sid : String) (store : Store) : StateD × Store :=
  match storeGet sid store with
  | some st => (st, store)
  | Option.none => (freshState m, storePut sid (freshState m) store)

/-- `state.get("current_score", 0)` read as an integer.  A non-numeric stored
score would make Python's `+` raise, but no pipeline operation ever stores a
non-numeric `current_score`. -/
def currentScoreInt (st : StateD) : Int :=
  match dictGet "current_score" st with
  | some v => (pyNum? v).getD 0
  | Option.none => 0

/-- One iteration of the merge loop of `update_state`: skip `score_change` and
`current_score`; set an absent key; shallow-merge two dicts; extend two lists;
otherwise replace. -/
def mergeField (st : StateD) (kv : String × PyVal) : StateD :=
  if kv.1 = "score_change" ∨ kv.1 = "current_score" then st
  else
    match dictGet kv.1 st with
    | Option.none => dictSet kv.1 kv.2 st
    | some old =>
      match old, kv.2 with
      | .dict od, .dict vd => dictSet kv.1 (.dict (pyDictUpdate od vd)) st
      | .list ol, .list vl => dictSet kv.1 (.list (ol ++ vl)) st
      | _, _ => dictSet kv.1 kv.2 st

/-- The `score_change` handling of `update_state`: a numeric value is added
to `current_score` (never replacing it); anything else leaves the state as
is. -/
def applyScoreChange (us : Dict) (st : StateD) : StateD :=
  match dictGet "score_change" us with
  | some v =>
    match pyNum? v with
    | some d => dictSet "current_score" (.int (currentScoreInt st + d)) st
    | Option.none => st
  | Option.none => st

/-- `ScenarioManager.update_state`: no-op on a non-dict delta; apply a numeric
`score_change` additively to `current_score`; merge the remaining keys. -/
def updateState (m : SM) (store : Store) (sid : String) (updates : PyVal) : Store :=
  match updates with
  | .dict us =>
    storePut sid (us.foldl mergeField (applyScoreChange us (getState m sid store).1))
      (getState m sid store).2
  | _ => store

mutual

/-- Python `==` on values, restricted to the shapes the pipeline compares
(case-id strings; numerics compare across `int`/`bool`).  Dict comparison is
order-sensitive here, an approximation never exercised by the claims. -/
def pyEqB : PyVal → PyVal → Bool
  | .str a, .str b => a == b
  | .none, .none => true
  | .list a, .list b => pyEqListB a b
  | .dict a, .dict b => pyEqDictB a b
  | a, b =>
    match pyNum? a, pyNum? b with
    | some x, some y => x == y
    | _, _ => false

/-- Elementwise `==` on lists. -/
def pyEqListB : List PyVal → List PyVal → Bool
  | [], [] => true
  | x :: xs, y :: ys => pyEqB x y && pyEqListB xs ys
  | _, _ => false

/-- Entrywise `==` on dict entries. -/
def pyEqDictB : List (String × PyVal) → List (String × PyVal) → Bool
  | [], [] => true
  | (k1, v1) :: xs, (k2, v2) :: ys => k1 == k2 && pyEqB v1 v2 && pyEqDictB xs ys
  | _, _ => false

end

/-- `ScenarioManager.get_case_by_id`: linear scan comparing `case.get("case_id")
== case_id`; `Except.error` models the raise on a non-dict case record. -/
def findCase : List PyVal → PyVal → Except String (Option Dict)
  | [], _ => .ok Option.none
  | .dict c :: rest, cid =>
    if pyEqB ((dictGet "case_id" c).getD .none) cid then .ok (some c)
    else findCase rest cid
  | _ :: _, _ => .error "AttributeError: no attribute get"

/-- `str(x)` as an f-string interpolates it; the list/dict branches are crude
placeholders never exercised by the claims. -/
def pyStrOf : PyVal → String
  | .str s => s
  | .int n => toString n
  | .bool b => if b then "True" else "False"
  | .none => "None"
  | .list _ => "[...]"
  | .dict _ => "\x7b...\x7d"

/-- `[f'- \x7bitem\x7d' for item in v]`: iterating a list yields its items, a
string its characters, a dict its keys; anything else raises (`Option.none`). -/
def iterItems : PyVal → Option (List String)
  | .list l => some (l.map pyStrOf)
  | .str s => some (s.toList.map (fun c => String.mk [c]))
  | .dict d => some (d.map (fun kv => kv.1))
  | _ => Option.none

/-- `chr(10).join([f'- \x7bitem\x7d' for item in v]) if v else dflt`. -/
def itemLines (v : PyVal) (dflt : String) : Option String :=
  if pyTruthy v then
    (iterItems v).map (fun items => String.intercalate "\n" (items.map (fun it => "- " ++ it)))
  else some dflt

/-- The fixed roleplay rules section of the persona prompt. -/
def personaRules : String :=
  "[ROLUNU OYNAMA KURALLARI]\n" ++
  "1. SEN HASTAYSIN - Dis hekimi ogrencisi sana soru soracak, sen hasta gibi yanit vereceksin\n" ++
  "2. DOGAL KONUS - Tibbi terimler kullanma, siradan bir hasta gibi konus\n" ++
  "3. TANINI ACIKLAMA - \"Liken planusum var\" DEME! Sadece belirtileri anlat: \"Agzimda beyaz cizgiler var\"\n" ++
  "4. KISA VE SAMIMI OL - Gercek hastalar uzun konusmaz, dogal ve ozlu yanitlar ver\n" ++
  "5. TURKCE KONUS - Tum yanitlarin Turkce olmali\n" ++
  "6. DOKTOR SANA \"HOCA\" DEMEYECEKTIR - Sen hastasi\nn, ona \"Doktor\" veya \"Hocam\" diyeceksin\n" ++
  "7. BILMEDIGINI SOYLE - Eger sana teknik bir sey sorulursa \"Bilmiyorum hocam\" de\n" ++
  "8. ACI/RAHATSIZLIK VARSA BELIRT - Eger agrin varsa dogal sekilde \"Ah, aciyor\" gibi ifade et\n\n" ++
  "SIMDI HASTA ROLUNE GIR ve ogrenci doktorun sorularini yanitla!"

/-- The persona body built from a patient dict (the f-string of
`get_case_persona`); `Option.none` models a raise while iterating a
non-iterable history/medication field. -/
def buildPersona (p : Dict) : Option String :=
  let age := pyOr ((dictGet "age" p).getD .none)
    (pyOr ((dictGet "yas" p).getD .none) (.str "bilinmeyen yaş"))
  let gender := pyOr ((dictGet "gender" p).getD .none)
    (pyOr ((dictGet "cinsiyet" p).getD .none) (.str ""))
  let chief := pyOr ((dictGet "chief_complaint" p).getD .none)
    (pyOr ((dictGet "sikayet" p).getD .none) (.str "Şikayetim var"))
  let medHist := pyOr ((dictGet "medical_history" p).getD .none)
    (pyOr ((dictGet "tibbi_gecmis" p).getD .none) (.list []))
  let socHist := pyOr ((dictGet "social_history" p).getD .none)
    (pyOr ((dictGet "sosyal_gecmis" p).getD .none) (.list []))
  let meds := pyOr ((dictGet "medications" p).getD .none) (.list [])
  match itemLines medHist "- Ozel bir hastaligim yok",
        itemLines meds "- Duzenli ilac kullanmiyorsun",
        itemLines socHist "- Ozel bir aliskanlik yok" with
  | some mh, some md, some sh =>
    some ("SEN BIR HASTA ROLUNDE OYNUYORSUN (ROLEPLAY):\n\n" ++
      "[KIMLIGIN]\n" ++
      "- Yas: " ++ pyStrOf age ++ " yasindasin\n" ++
      (if pyTruthy gender then "- Cinsiyet: " ++ pyStrOf gender else "") ++ "\n" ++
      "- Ana Sikayetin: \"" ++ pyStrOf chief ++ "\"\n\n" ++
      "[TIBBI GECMISIN]\n" ++ mh ++ "\n\n" ++
      "[ILACLAR]\n" ++ md ++ "\n\n" ++
      "[SOSYAL GECMIS]\n" ++ sh ++ "\n\n" ++
      personaRules)
  | _, _, _ => Option.none

/-- `ScenarioManager.get_case_persona`: generic persona when the case is
absent; otherwise the persona built from the patient block under either key
convention.  `Except.error` models a raise (non-dict case record, truthy
non-dict patient block, or a non-iterable history field). -/
def get_case_persona (m : SM) (cid : PyVal) : Except String String :=
  match findCase m.caseData cid with
  | .error e => .error e
  | .ok Option.none =>
    .ok "Siz bir diş hekimliği hastasısınız. Doğal ve samimi şekilde yanıt verin."
  | .ok (some c) =>
    let pd := pyOr ((dictGet "patient" c).getD .none)
      (pyOr ((dictGet "hasta_profili" c).getD .none) (.dict []))
    match pd with
    | .dict p =>
      match buildPersona p with
      | some s => .ok s
      | Option.none => .error "TypeError: not iterable"
    | _ => .error "AttributeError: no attribute get"

/-! ### `agent.py`: interpretation step -/

/-- The context-snippet construction at the top of `interpret_action` runs
`state.get("patient", \x7b\x7d).get("age")` before the try block, so it raises
unless the state's `patient` entry is absent or a dict. -/
def patientFieldWF (state : StateD) : Bool :=
  match dictGet "patient" state with
  | some (.dict _) => true
  | some _ => false
  | Option.none => true

/-- The short-text conversational fallback Interpretation (no JSON extracted,
non-empty raw text under 200 characters). -/
def shortChatInterp (raw : String) : Dict :=
  [("intent_type", .str "CHAT"),
   ("interpreted_action", .str "general_chat"),
   ("explanatory_feedback", .str (pyStrip raw)),
   ("clinical_intent", .str "other"),
   ("priority", .str "low"),
   ("safety_concerns", .list []),
   ("structured_args", .dict [])]

/-- The generic `CHAT`/`error` Interpretation returned from the exception
handler. -/
def chatErrorInterp (feedback : String) : Dict :=
  [("intent_type", .str "CHAT"),
   ("interpreted_action", .str "error"),
   ("explanatory_feedback", .str feedback),
   ("safety_concerns", .list []),
   ("clinical_intent", .str "other"),
   ("priority", .str "low"),
   ("structured_args", .dict [])]

/-- Feedback prefix added when the quota fallback delegates to the mock. -/
def quotaNotice : String := "⚠️ API kotası doldu (Mock sistem aktif). "

/-- Feedback used when the mock fallback itself fails. -/
def quotaLimitFeedback : String :=
  "⏳ API günlük kullanım limiti doldu. Lütfen yarın tekrar deneyin."

/-- Feedback used for a non-quota failure. -/
def techErrorFeedback : String :=
  "Anlaşılamadı (Teknik Hata). Lütfen tekrar dener misiniz?"

/-- `"quota" in error_msg.lower() or "429" in error_msg`. -/
def quotaSignature (msg : String) : Bool :=
  strContains (pyLower msg) "quota" || strContains msg "429"

/-- Prefix the mock result's feedback with the quota notice; the fallback
branch models the inner `try`/`except` around the mock call (a missing
feedback key would raise a `KeyError` there). -/
def prefixMockFeedback (mock : Dict) : Dict :=
  match dictGet "explanatory_feedback" mock with
  | some (.str s) => dictSet "explanatory_feedback" (.str (quotaNotice ++ s)) mock
  | _ => chatErrorInterp quotaLimitFeedback

/-- The `except` handler of `interpret_action`: quota signature delegates to
the mock interpreter with a prefixed feedback, anything else returns the
generic `CHAT`/`error` Interpretation. -/
def interpretOnExc (msg action : String) : Dict :=
  if quotaSignature msg then prefixMockFeedback (get_mock_interpretation action)
  else chatErrorInterp techErrorFeedback

/-- `.strip()` on a fetched value: only strings have it; `Option.none` models
the `AttributeError` raised otherwise (caught by the handler). -/
def pyStripStr? : PyVal → Option String
  | .str s => some (pyStrip s)
  | _ => Option.none

/-- The normalization block of `interpret_action`, with every field defaulted;
`Option.none` models a raise inside the block. -/
def normalizeInterp (data : Dict) : Option Dict :=
  match pyStripStr? ((dictGet "intent_type" data).getD (.str "ACTION")),
        pyStripStr? ((dictGet "interpreted_action" data).getD (.str "")),
        pyStripStr? ((dictGet "clinical_intent" data).getD (.str "other")),
        pyStripStr? ((dictGet "priority" data).getD (.str "medium")),
        pyStripStr? ((dictGet "explanatory_feedback" data).getD (.str "")) with
  | some it, some ia, some ci, some pr, some ef =>
    some [("intent_type", .str it),
          ("interpreted_action", .str ia),
          ("clinical_intent", .str (if ci = "" then "other" else ci)),
          ("priority", .str (if pr = "" then "medium" else pr)),
          ("safety_concerns", pyOr ((dictGet "safety_concerns" data).getD (.list [])) (.list [])),
          ("explanatory_feedback", .str ef),
          ("structured_args", pyOr ((dictGet "structured_args" data).getD (.dict [])) (.dict []))]
  | _, _, _, _, _ => Option.none

/-- `DentalEducationAgent.interpret_action`.  The model-call outcome is an
oracle: `Except.ok raw` is the response text (`getattr(response, "text", "")
or ""` already applied), `Except.error msg` a raised exception with text
`msg`.  Internal exception texts passed to the handler: the `ValueError`
literal is the source's fixed string, and the two `AttributeError` stand-ins
are safe constants because CPython's `'<type>' object has no attribute ...`
texts never contain a quota signature.  The `json.JSONDecodeError` text is
NOT constant — CPython embeds `line L column C (char P)` positions whose
digits can contain `429` and so satisfy the handler's quota test — so it is
supplied as the oracle `decodeErr`, mapping the failing candidate to its
decode-error message. -/
def interpret_action (modelCall : Except String String)
    (decodeErr : String → String) (action : String)
    (state : StateD) : Except String Dict :=
  if !patientFieldWF state then
    .error "AttributeError: no attribute get"
  else
    match modelCall with
    | .error msg => .ok (interpretOnExc msg action)
    | .ok rawText =>
      match _extract_first_json_block rawText with
      | Option.none =>
        if rawText ≠ "" ∧ rawText.length < 200 then .ok (shortChatInterp rawText)
        else .ok (interpretOnExc "Failed to extract JSON from model response." action)
      | some jsonStr =>
        match jsonLoads? jsonStr with
        | some (.dict data) =>
          match normalizeInterp data with
          | some interp => .ok interp
          | Option.none => .ok (interpretOnExc "AttributeError: no attribute strip" action)
        | some _ => .ok (interpretOnExc "AttributeError: no attribute get" action)
        | Option.none => .ok (interpretOnExc (decodeErr jsonStr) action)

/-! ### `agent.py`: silent evaluation, roleplay, feedback composition -/

/-- `DentalEducationAgent._silent_evaluation`: the whole body is guarded, so
every failure (no MedGemma service, a raised rule lookup or validation call,
or a non-dict evaluation, whose logging `.get` raises inside the try) yields
the empty dict; only a dict evaluation is returned.  The outcome of the
external `validate_clinical_action` call is the oracle. -/
def _silent_evaluation (medGemma : Option (Except String PyVal)) : PyVal :=
  match medGemma with
  | Option.none => .dict []
  | some (.error _) => .dict []
  | some (.ok (.dict d)) => .dict d
  | some (.ok _) => .dict []

/-- The fixed reply used when the roleplay model output is empty. -/
def emptyReplyFiller : String := "Hocam, tam anlayamadım. Tekrar sorar mısınız?"

/-- The fixed reply used when the roleplay step raises. -/
def roleplayErrorFiller : String := "Üzgünüm, şu anda kendimi iyi hissetmiyorum."

/-- `DentalEducationAgent.get_patient_response`: persona lookup and a roleplay
model call inside a try; empty output gets the "didn't catch that" filler,
any raise gets the apology filler.  Never propagates an error. -/
def get_patient_response (m : SM) (modelCall : Except String String)
    (student_question : String) (case_id : PyVal) : String :=
  match get_case_persona m case_id with
  | .error _ => roleplayErrorFiller
  | .ok persona =>
    let _prompt := persona ++ "\n\nÖĞRENCİ DOKTOR SORUSU:\n\"" ++ student_question ++
      "\"\n\nHASTA OLARAK YANIT VER (Kısa, doğal, Türkçe):"
    match modelCall with
    | .error _ => roleplayErrorFiller
    | .ok t =>
      let reply := pyStrip t
      if reply = "" then emptyReplyFiller else reply

/-- `DentalEducationAgent._compose_final_feedback`: the explanatory feedback
is returned in both the `CHAT` and the `ACTION` branch (the score is never
echoed). -/
def _compose_final_feedback (interpretation : Dict) (_assessment : PyVal) : String :=
  let explanatory :=
    match dictGet "explanatory_feedback" interpretation with
    | some (.str s) => s
    | _ => ""
  if pyEqB ((dictGet "intent_type" interpretation).getD .none) (.str "CHAT") then explanatory
  else explanatory

/-! ### `agent.py`: the per-turn pipeline -/

/-- The external capabilities of one turn, as oracles.  `decodeErr` is the
`json.JSONDecodeError` message for a candidate the interpretation step fails
to decode (its text embeds numeric positions, see `interpret_action`). -/
structure Oracles where
  interpretCall : Except String String
  decodeErr : String → String
  patientCall : Except String String
  evaluateAction : PyVal → Dict → Except String PyVal
  medGemma : Option (Except String PyVal)

/-- The `TurnResult` dict returned by `process_student_input`. -/
structure TurnResult where
  student_id : String
  case_id : PyVal
  llm_interpretation : PyVal
  assessment : PyVal
  silent_evaluation : PyVal
  final_feedback : String
  updated_state : PyVal
  mode : String

/-- `a.get(k)` where `a` may not be a dict: `Option.none` models the raise. -/
def pyGetA (a : PyVal) (k : String) : Option PyVal :=
  match a with
  | .dict d => some ((dictGet k d).getD .none)
  | _ => Option.none

/-- The best-effort background chain of the patient branch (the try block of
lines 402-412): interpretation, rule evaluation, silent evaluation, and the
conditional state merge probing `state_updates` then `state_update`.  Any
raise keeps the partial results obtained so far and leaves the store as it
was. -/
def patientBackground (m : SM) (o : Oracles) (store : Store) (sid raw : String)
    (state : StateD) (cid : PyVal) : PyVal × PyVal × Store :=
  match interpret_action o.interpretCall o.decodeErr raw state with
  | .error _ => (.dict [], .dict [], store)
  | .ok ibg =>
    match o.evaluateAction cid ibg with
    | .error _ => (.dict [], .dict [], store)
    | .ok a0 =>
      let a := pyOr a0 (.dict [])
      let se := _silent_evaluation o.medGemma
      match pyGetA a "state_updates", pyGetA a "state_update" with
      | some su1, some su2 =>
        let sel := pyOr su1 (pyOr su2 (.dict []))
        if isDict sel && pyTruthy sel then (a, se, updateState m store sid sel)
        else (a, se, store)
      | _, _ => (a, se, store)

/-- The case id used by the turn: the supplied one, else the state's. -/
def turnCaseId (m : SM) (sid : String) (case_id? : Option String) (store : Store) : PyVal :=
  match case_id? with
  | some c => .str c
  | Option.none => (dictGet "case_id" (getState m sid store).1).getD (.str "default_case")

/-- The state after step 1 of the turn (load, then overwrite `case_id` in
place when one was supplied). -/
def initState (m : SM) (sid : String) (case_id? : Option String) (store : Store) : StateD :=
  match case_id? with
  | some c => dictSet "case_id" (.str c) (getState m sid store).1
  | Option.none => (getState m sid store).1

/-- The store after step 1 of the turn: the lazily created state is inserted,
and the in-place `case_id` write goes through the stored alias. -/
def initStore (m : SM) (sid : String) (case_id? : Option String) (store : Store) : Store :=
  match case_id? with
  | some c => storePut sid (dictSet "case_id" (.str c) (getState m sid store).1) (getState m sid store).2
  | Option.none => (getState m sid store).2

/-- `DentalEducationAgent.process_student_input`.  `Except.error` models a
raise propagating to the caller (possible only in educator mode). -/
def process_student_input (m : SM) (o : Oracles) (store : Store)
    (student_id raw_action : String) (case_id? : Option String)
    (patient_mode : Bool) : Except String (TurnResult × Store) :=
  let state := initState m student_id case_id? store
  let cid := turnCaseId m student_id case_id? store
  let store2 := initStore m student_id case_id? store
  if patient_mode then
    let patient_response := get_patient_response m o.patientCall raw_action cid
    let bg := patientBackground m o store2 student_id raw_action state cid
    let p2 := getState m student_id bg.2.2
    .ok ({ student_id := student_id,
           case_id := cid,
           llm_interpretation := .dict
             [("explanatory_feedback", .str patient_response),
              ("intent_type", .str "CHAT"),
              ("interpreted_action", .str "patient_conversation")],
           assessment := bg.1,
           silent_evaluation := bg.2.1,
           final_feedback := patient_response,
           updated_state := .dict p2.1,
           mode := "patient" }, p2.2)
  else
    match interpret_action o.interpretCall o.decodeErr raw_action state with
    | .error e => .error e
    | .ok interpretation =>
      match o.evaluateAction cid interpretation with
      | .error e => .error e
      | .ok a0 =>
        let assessment := pyOr a0 (.dict [])
        let se := _silent_evaluation o.medGemma
        let ff := _compose_final_feedback interpretation assessment
        match pyGetA assessment "state_updates", pyGetA assessment "state_update",
              pyGetA assessment "new_state_data" with
        | some su1, some su2, some su3 =>
          let sel := pyOr su1 (pyOr su2 (pyOr su3 (.dict [])))
          let store3 := if isDict sel && pyTruthy sel then updateState m store2 student_id sel
            else store2
          let p2 := getState m student_id store3
          .ok ({ student_id := student_id,
                 case_id := cid,
                 llm_interpretation := .dict interpretation,
                 assessment := assessment,
                 silent_evaluation := se,
                 final_feedback := ff,
                 updated_state := .dict p2.1,
                 mode := "educator" }, p2.2)
        | _, _, _ => .error "AttributeError: no attribute get"

/-! ### Observation helpers for theorem statements -/

/-- The `intent_type` of an interpretation, when it is a string. -/
def interpIntent (d : Dict) : Option String :=
  match dictGet "intent_type" d with
  | some (.str s) => some s
  | _ => Option.none

/-- The `explanatory_feedback` of an interpretation, when it is a string. -/
def interpFeedback (d : Dict) : Option String :=
  match dictGet "explanatory_feedback" d with
  | some (.str s) => some s
  | _ => Option.none

/-- The `intent_type` of an `interpret_action` outcome. -/
def resultIntent (r : Except String Dict) : Option String :=
  match r with
  | .ok d => interpIntent d
  | .error _ => Option.none

/-- The `explanatory_feedback` of an `interpret_action` outcome. -/
def resultFeedback (r : Except String Dict) : Option String :=
  match r with
  | .ok d => interpFeedback d
  | .error _ => Option.none

/-- Whether an `Except` outcome is a normal return. -/
def exceptOk {α : Type} (r : Except String α) : Bool :=
  match r with
  | .ok _ => true
  | .error _ => false

/-- The score contribution of one delta: its numeric `score_change`, else 0. -/
def scoreDelta : PyVal → Int
  | .dict us =>
    match dictGet "score_change" us with
    | some v => (pyNum? v).getD 0
    | Option.none => 0
  | _ => 0

/-- Total score contribution of a sequence of deltas. -/
def sumScoreDeltas (ds : List PyVal) : Int := (ds.map scoreDelta).sum

/-- Apply a sequence of deltas for one learner through `updateState`. -/
def applyDeltas (m : SM) (sid : String) (store : Store) (ds : List PyVal) : Store :=
  ds.foldl (fun s d => updateState m s sid d) store

/-- A store is reachable for a learner when it arises from a first `get_state`
on an unseen id followed by some sequence of `update_state` calls — the only
ways the pipeline ever touches a learner's state. -/
def Reachable (m : SM) (sid : String) (store : Store) : Prop :=
  ∃ store0 ds, storeGet sid store0 = Option.none ∧
    store = applyDeltas m sid ((getState m sid store0).2) ds

/-- The model output is malformed for the parse pipeline: no JSON block could
be extracted, or the extracted block does not load, or loads to a non-dict, or
fails normalization. -/
def parsePipelineFails (raw : String) : Bool :=
  match _extract_first_json_block raw with
  | Option.none => true
  | some js =>
    match jsonLoads? js with
    | some (.dict data) => (normalizeInterp data).isNone
    | some _ => true
    | Option.none => true

/-- The parse-pipeline failures whose handler messages are genuinely constant
in CPython (extraction failed outright; a non-dict value; a normalization
raise) — everything of `parsePipelineFails` except a JSON decode failure,
whose message is position-dependent. -/
def extractNonDecodeFails (raw : String) : Bool :=
  match _extract_first_json_block raw with
  | Option.none => true
  | some js =>
    match jsonLoads? js with
    | some (.dict data) => (normalizeInterp data).isNone
    | some _ => true
    | Option.none => false

/-- The failure condition of the interpretation step: the model call raised,
or its output is malformed or absent. -/
def llmFailureCase (mc : Except String String) : Prop :=
  (∃ msg, mc = .error msg) ∨ (∃ raw, mc = .ok raw ∧ parsePipelineFails raw = true)

/-! ### Concrete fixtures used by witnesses and counterexamples -/

/-- A manager with an empty catalog. -/
def emptySM : SM := ⟨[], "olp_001"⟩

/-- A one-case catalog record. -/
def exCase : Dict :=
  [("case_id", .str "olp_001"), ("name", .str "OLP Vakasi"),
   ("patient", .dict [("age", .int 62)])]

/-- The parsed catalog resource holding `exCase`. -/
def exParsed : PyVal := .list [.dict exCase]

/-- The manager built from `exParsed`. -/
def exSM : SM := ⟨[.dict exCase], "olp_001"⟩

/-- A decode-error message whose position digits carry no quota signature. -/
def plainDecodeErr : String → String :=
  fun _ => "Expecting value: line 1 column 2 (char 1)"

/-- A decode-error message whose column position happens to contain `429`,
as CPython produces for a candidate failing at offset 428. -/
def quotaDecodeErr : String → String :=
  fun _ => "Expecting value: line 1 column 429 (char 428)"

/-- Turn oracles for witnesses: a failing interpretation call, a fixed
roleplay reply, a failing rule evaluator, no second evaluator. -/
def exOracles : Oracles :=
  ⟨.error "boom", plainDecodeErr, .ok "Agzimda yara var.",
   fun _ _ => .error "engine down", Option.none⟩

/-- A state delta kept only under `new_state_data`. -/
def exDelta : Dict := [("score_change", .int 10)]

/-- An assessment carrying its delta only under `new_state_data`. -/
def exAd : Dict :=
  [("score", .int 10), ("rule_outcome", .str "correct"), ("new_state_data", .dict exDelta)]

/-- Turn oracles whose rule evaluator returns `exAd` on every call. -/
def exOracles10 : Oracles :=
  ⟨.error "boom", plainDecodeErr, .ok "Tamam.", fun _ _ => .ok (.dict exAd), Option.none⟩

/-- Input on which the extractor falls back to the unvalidated greedy brace
span (the fenced candidate does not parse). -/
def cexExtractInput : String := "``` \x7bbad\x7d ```  x \x7b ``` \x7b\"a\":1\x7d ``` \x7d"

/-- The greedy span the extractor returns for `cexExtractInput`. -/
def cexExtractMid : String := "\x7bbad\x7d ```  x \x7b ``` \x7b\"a\":1\x7d ``` \x7d"

/-- A JSON-marked fenced block embedded in prose. -/
def c6Input : String := "Here is the result: ```json\n\x7b\"a\":1\x7d\n``` hope this helps"

/-! ### Supporting lemmas: dicts and the store -/

theorem dictGet_dictSet_self (k : String) (v : PyVal) (d : Dict) :
    dictGet k (dictSet k v d) = some v := by
  induction d with
  | nil => simp [dictGet, dictSet]
  | cons kv rest ih =>
    obtain ⟨k2, w⟩ := kv
    by_cases h : k2 = k
    · simp [dictGet, dictSet, h]
    · simp [dictGet, dictSet, h, ih]

theorem dictGet_dictSet_ne {k2 k : String} (v : PyVal) (d : Dict) (h : k2 ≠ k) :
    dictGet k (dictSet k2 v d) = dictGet k d := by
  induction d with
  | nil => simp [dictGet, dictSet, h]
  | cons kv rest ih =>
    obtain ⟨k3, w⟩ := kv
    by_cases h3 : k3 = k2
    · subst h3
      simp [dictGet, dictSet, h]
    · by_cases h4 : k3 = k <;> simp [dictGet, dictSet, h3, h4, ih, Ne.symm h]

theorem storeGet_storePut_self (sid : String) (st : StateD) (store : Store) :
    storeGet sid (storePut sid st store) = some st := by
  induction store with
  | nil => simp [storeGet, storePut]
  | cons kv rest ih =>
    obtain ⟨k2, w⟩ := kv
    by_cases h : k2 = sid
    · simp [storeGet, storePut, h]
    · simp [storeGet, storePut, h, ih]

theorem getState_present {m : SM} {sid : String} {store : Store} {st : StateD}
    (h : storeGet sid store = some st) : getState m sid store = (st, store) := by
  unfold getState
  rw [h]

theorem storeGet_getState (m : SM) (sid : String) (store : Store) :
    storeGet sid (getState m sid store).2 = some (getState m sid store).1 := by
  unfold getState
  cases h : storeGet sid store with
  | some st => simpa using h
  | none => simp [storeGet_storePut_self]

theorem dictGet_mergeField_ne {k : String} (st : StateD) (kv : String × PyVal)
    (h : kv.1 ≠ k) : dictGet k (mergeField st kv) = dictGet k st := by
  unfold mergeField
  split
  · rfl
  · split
    · exact dictGet_dictSet_ne _ _ h
    · split <;> exact dictGet_dictSet_ne _ _ h

theorem dictGet_mergeField_special {k : String} (st : StateD) (kv : String × PyVal)
    (hk : k = "score_change" ∨ k = "current_score") :
    dictGet k (mergeField st kv) = dictGet k st := by
  by_cases h : kv.1 = k
  · unfold mergeField
    rw [if_pos]
    rcases hk with hk | hk <;> rw [h, hk] <;> simp
  · exact dictGet_mergeField_ne st kv h

theorem dictGet_foldl_merge_ne {k : String} (us : Dict) (st : StateD)
    (h : ∀ kv ∈ us, kv.1 ≠ k) :
    dictGet k (us.foldl mergeField st) = dictGet k st := by
  induction us generalizing st with
  | nil => rfl
  | cons kv rest ih =>
    rw [List.foldl_cons, ih _ (fun x hx => h x (List.mem_cons_of_mem kv hx)),
      dictGet_mergeField_ne st kv (h kv (List.mem_cons_self kv rest))]

theorem dictGet_foldl_merge_special {k : String} (us : Dict) (st : StateD)
    (hk : k = "score_change" ∨ k = "current_score") :
    dictGet k (us.foldl mergeField st) = dictGet k st := by
  induction us generalizing st with
  | nil => rfl
  | cons kv rest ih =>
    rw [List.foldl_cons, ih _, dictGet_mergeField_special st kv hk]

theorem dictGet_split {k : String} {v : PyVal} {us : Dict}
    (h : dictGet k us = some v) :
    ∃ us1 us2, us = us1 ++ (k, v) :: us2 ∧ ∀ kv ∈ us1, kv.1 ≠ k := by
  induction us with
  | nil => simp [dictGet] at h
  | cons kv rest ih =>
    obtain ⟨k2, w⟩ := kv
    by_cases h2 : k2 = k
    · subst h2
      rw [dictGet, if_pos rfl] at h
      obtain rfl : w = v := Option.some.inj h
      exact ⟨[], rest, rfl, by simp⟩
    · rw [dictGet, if_neg h2] at h
      obtain ⟨us1, us2, hsplit, hne⟩ := ih h
      refine ⟨(k2, w) :: us1, us2, by rw [hsplit, List.cons_append], ?_⟩
      intro kv hkv
      rcases List.mem_cons.mp hkv with rfl | hkv
      · exact h2
      · exact hne kv hkv

/-! ### Supporting lemmas: stripping and the extractor -/

theorem toList_mk (l : List Char) : (String.mk l).toList = l := rfl

theorem mk_toList (s : String) : String.mk s.toList = s := rfl

theorem stripL_eq_rdrop (cs : List Char) :
    stripL cs = List.rdropWhile isPyWS (cs.dropWhile isPyWS) := rfl

theorem dropWhile_fix_of_append {p : Char → Bool} :
    ∀ {u r a : List Char}, u ++ r = a → a.dropWhile p = a → u.dropWhile p = u := by
  intro u r a hur ha
  cases u with
  | nil => rfl
  | cons c cu =>
    cases a with
    | nil => simp at hur
    | cons b bs =>
      have hcb : c = b := by
        have := congrArg List.head? hur
        simpa using this
      subst hcb
      cases hpc : p c with
      | true =>
        simp only [List.dropWhile_cons, hpc, if_true] at ha
        have hle := (List.dropWhile_suffix p : bs.dropWhile p <:+ bs).length_le
        rw [ha] at hle
        simp at hle
      | false => simp [List.dropWhile_cons, hpc]

theorem stripL_idem (cs : List Char) : stripL (stripL cs) = stripL cs := by
  rw [stripL_eq_rdrop, stripL_eq_rdrop]
  have ha : (cs.dropWhile isPyWS).dropWhile isPyWS = cs.dropWhile isPyWS :=
    List.dropWhile_idempotent isPyWS cs
  obtain ⟨r, hr⟩ := List.rdropWhile_prefix isPyWS (cs.dropWhile isPyWS)
  rw [dropWhile_fix_of_append hr ha, List.rdropWhile_idempotent]

theorem extractGreedy_stripped {t : List Char} {s : String}
    (h : extractGreedy t = some s) : ∃ l, s = String.mk (stripL l) := by
  unfold extractGreedy at h
  split at h
  · exact ⟨_, (Option.some.inj h).symm⟩
  · exact absurd h (by simp)

theorem extractAnyFence_stripped {t : List Char} {s : String}
    (h : extractAnyFence t = some s) : ∃ l, s = String.mk (stripL l) := by
  unfold extractAnyFence at h
  split at h
  · split at h
    · exact ⟨_, (Option.some.inj h).symm⟩
    · exact extractGreedy_stripped h
  · exact extractGreedy_stripped h

theorem extract_stripped {t s : String} (h : _extract_first_json_block t = some s) :
    ∃ l, s = String.mk (stripL l) := by
  unfold _extract_first_json_block at h
  split at h
  · exact ⟨t.toList, (Option.some.inj h).symm⟩
  · split at h
    · split at h
      · exact ⟨_, (Option.some.inj h).symm⟩
      · exact extractAnyFence_stripped h
    · exact extractAnyFence_stripped h

/-! ### Claim C5 -/

/-- Claim C5 (amended): the JSON Extractor is idempotent on every output that
itself parses as JSON — whenever `_extract_first_json_block` returns `s` and
`s` loads as JSON, re-running the extractor on `s` returns `s` itself.  (The
unvalidated greedy fallback can return a non-parsing string that is not a
fixed point; see the counterexample.) -/
theorem extractor_idempotent_on_parsed (t s : String)
    (h1 : _extract_first_json_block t = some s)
    (h2 : (jsonLoads? s).isSome = true) :
    _extract_first_json_block s = some s := by
  obtain ⟨l, rfl⟩ := extract_stripped h1
  have hs : stripL (String.mk (stripL l)).toList = (String.mk (stripL l)).toList := by
    rw [toList_mk]
    exact stripL_idem l
  unfold _extract_first_json_block
  rw [hs]
  have hc : (jsonLoadsL (String.mk (stripL l)).toList).isSome = true := h2
  rw [if_pos hc, toList_mk]

/-- Witness for C5: a concrete input whose extracted block parses, on which
the extractor is a fixed point. -/
theorem extractor_idempotent_on_parsed_witness :
    _extract_first_json_block "\x7b\"a\":1\x7d" = some "\x7b\"a\":1\x7d" :=
  extractor_idempotent_on_parsed "x \x7b\"a\":1\x7d" "\x7b\"a\":1\x7d"
    (by decide) (by decide)

/-- Counterexample to C5 as stated: on `cexExtractInput` the extractor returns
the unvalidated greedy span `cexExtractMid`, and re-running it on that output
returns the inner fenced object instead — the extractor is not idempotent. -/
theorem extractor_not_idempotent_cex :
    _extract_first_json_block cexExtractInput = some cexExtractMid ∧
    _extract_first_json_block cexExtractMid = some "\x7b\"a\":1\x7d" ∧
    cexExtractMid ≠ "\x7b\"a\":1\x7d" ∧
    _extract_first_json_block cexExtractMid ≠ some cexExtractMid := by
  refine ⟨by decide, by decide, by decide, by decide⟩

/-! ### Claim C6 -/

/-- Claim C6: for a raw response embedding a JSON-marked fenced block in
prose (whose whole trimmed text does not parse as JSON), the extractor
returns exactly the object inside the fence. -/
theorem extractor_fenced_json_block :
    _extract_first_json_block c6Input = some "\x7b\"a\":1\x7d" ∧
    (jsonLoads? (pyStrip c6Input)).isSome = false := by
  refine ⟨by decide, by decide⟩

/-! ### Supporting lemmas: the interpretation step -/

theorem mock_feedback_str (action : String) :
    ∃ f, dictGet "explanatory_feedback" (get_mock_interpretation action) = some (.str f) := by
  by_cases h : isClinicalInput (pyLower action)
  · exact ⟨"Eylem yorumlandı: " ++ pyTitle (pyReplaceChar '_' ' ' (matchedAction (pyLower action))),
      by simp [get_mock_interpretation, h, dictGet]⟩
  · exact ⟨"Sohbet modu. Klinik eylemlere odaklanın.",
      by simp [get_mock_interpretation, h, dictGet]⟩

theorem interpIntent_mock (action : String) :
    interpIntent (get_mock_interpretation action) =
      some (if isClinicalInput (pyLower action) then "ACTION" else "CHAT") := by
  by_cases h : isClinicalInput (pyLower action) <;>
    simp [get_mock_interpretation, h, interpIntent, dictGet]

theorem interpIntent_prefixMock (action : String) :
    interpIntent (prefixMockFeedback (get_mock_interpretation action)) =
      interpIntent (get_mock_interpretation action) := by
  obtain ⟨f, hf⟩ := mock_feedback_str action
  unfold prefixMockFeedback
  rw [hf]
  unfold interpIntent
  rw [dictGet_dictSet_ne _ _ (by decide)]

theorem interpFeedback_prefixMock (action : String) :
    ∃ f, interpFeedback (prefixMockFeedback (get_mock_interpretation action)) =
      some (quotaNotice ++ f) := by
  obtain ⟨f, hf⟩ := mock_feedback_str action
  refine ⟨f, ?_⟩
  unfold prefixMockFeedback
  rw [hf]
  unfold interpFeedback
  rw [dictGet_dictSet_self]

theorem exc_safe (msg action : String) (hq : quotaSignature msg = false) :
    interpIntent (interpretOnExc msg action) = some "CHAT" ∧
    interpFeedback (interpretOnExc msg action) = some techErrorFeedback := by
  simp [interpretOnExc, hq, interpIntent, interpFeedback, chatErrorInterp, dictGet]

theorem prefixMock_intent_cases (action : String) :
    interpIntent (prefixMockFeedback (get_mock_interpretation action)) = some "CHAT" ∨
    interpIntent (prefixMockFeedback (get_mock_interpretation action)) = some "ACTION" := by
  rw [interpIntent_prefixMock, interpIntent_mock]
  by_cases h : isClinicalInput (pyLower action) <;> simp [h]

theorem prefixMock_feedback_ne (action : String) :
    ∀ s, interpFeedback (prefixMockFeedback (get_mock_interpretation action)) = some s →
      s ≠ "" := by
  obtain ⟨f, hf⟩ := interpFeedback_prefixMock action
  intro s hs h0
  rw [hf] at hs
  obtain rfl : quotaNotice ++ f = s := Option.some.inj hs
  have hlen := congrArg String.length h0
  rw [String.length_append] at hlen
  have hql : 0 < quotaNotice.length := by decide
  simp only [String.length_empty] at hlen
  omega

/-! ### Claim C1 -/

/-- Claim C1 (amended): when the model call raises with a non-quota error,
the Interpretation has intent_type `CHAT`; when it raises with a
quota/rate-limit signature, the Mock Interpreter's result is returned
(feedback prefixed) and its intent_type is `ACTION` exactly when the lowered
input contains a clinical verb keyword; when extraction fails outright or the
extracted block parses to a non-dict or fails normalization, the result is
`CHAT`; and when the extracted block fails JSON decoding, the result is
`CHAT` unless the decoder's error text — which embeds numeric line/column
positions — itself carries a quota signature (for example the digits `429`),
in which case the quota fallback again returns the mock.  So a failed
interpretation CAN be surfaced as a gradable `ACTION`, both on a quota error
and on a decode failure whose position digits contain `429`. -/
theorem interpret_failure_intent (msg action : String) (decodeErr : String → String)
    (state : StateD) (hwf : patientFieldWF state = true) :
    (quotaSignature msg = false →
      resultIntent (interpret_action (.error msg) decodeErr action state) = some "CHAT") ∧
    (quotaSignature msg = true →
      interpret_action (.error msg) decodeErr action state =
        .ok (prefixMockFeedback (get_mock_interpretation action)) ∧
      resultIntent (interpret_action (.error msg) decodeErr action state) =
        some (if isClinicalInput (pyLower action) then "ACTION" else "CHAT")) ∧
    (∀ raw, extractNonDecodeFails raw = true →
      resultIntent (interpret_action (.ok raw) decodeErr action state) = some "CHAT") ∧
    (∀ raw js, _extract_first_json_block raw = some js → jsonLoads? js = Option.none →
      (quotaSignature (decodeErr js) = false →
        resultIntent (interpret_action (.ok raw) decodeErr action state) = some "CHAT") ∧
      (quotaSignature (decodeErr js) = true →
        interpret_action (.ok raw) decodeErr action state =
          .ok (prefixMockFeedback (get_mock_interpretation action)))) := by
  refine ⟨?_, ?_, ?_, ?_⟩
  · intro hq
    simp only [interpret_action, hwf, Bool.not_true, Bool.false_eq_true, if_false, resultIntent]
    exact (exc_safe msg action hq).1
  · intro hq
    constructor
    · simp [interpret_action, hwf, interpretOnExc, hq]
    · simp only [interpret_action, hwf, Bool.not_true, Bool.false_eq_true, if_false, resultIntent]
      simp only [interpretOnExc, hq, if_true]
      rw [interpIntent_prefixMock, interpIntent_mock]
  · intro raw hfail
    simp only [interpret_action, hwf, Bool.not_true, Bool.false_eq_true, if_false, resultIntent]
    unfold extractNonDecodeFails at hfail
    cases hext : _extract_first_json_block raw with
    | none =>
      simp only [hext]
      by_cases hc : raw ≠ "" ∧ raw.length < 200
      · simp [hc, shortChatInterp, interpIntent, dictGet]
      · simp only [if_neg hc]
        exact (exc_safe _ action (by decide)).1
    | some js =>
      simp only [hext] at hfail
      simp only [hext]
      cases hload : jsonLoads? js with
      | none =>
        simp only [hload] at hfail
        simp at hfail
      | some v =>
        simp only [hload] at hfail
        cases v with
        | dict data =>
          simp only [hload]
          cases hn : normalizeInterp data with
          | none =>
            simp only [hn]
            exact (exc_safe _ action (by decide)).1
          | some interp =>
            simp only [hn] at hfail
            simp at hfail
        | none => simp only [hload]; exact (exc_safe _ action (by decide)).1
        | bool b => simp only [hload]; exact (exc_safe _ action (by decide)).1
        | int n => simp only [hload]; exact (exc_safe _ action (by decide)).1
        | str s2 => simp only [hload]; exact (exc_safe _ action (by decide)).1
        | list xs => simp only [hload]; exact (exc_safe _ action (by decide)).1
  · intro raw js hext hload
    constructor
    · intro hq
      simp only [interpret_action, hwf, Bool.not_true, Bool.false_eq_true, if_false,
        resultIntent, hext, hload]
      exact (exc_safe _ action hq).1
    · intro hq
      simp [interpret_action, hwf, hext, hload, interpretOnExc, hq]

/-- Witness for C1: every amended branch discharged at concrete inputs,
including an unvalidated greedy candidate whose decode message does and does
not carry a quota signature. -/
theorem interpret_failure_intent_witness :
    resultIntent (interpret_action (.error "boom") plainDecodeErr "merhaba" []) = some "CHAT" ∧
    interpret_action (.error "quota") plainDecodeErr "paterji testi yap" [] =
      .ok (prefixMockFeedback (get_mock_interpretation "paterji testi yap")) ∧
    resultIntent (interpret_action (.ok "no json here") plainDecodeErr "merhaba" []) =
      some "CHAT" ∧
    resultIntent (interpret_action (.ok "x \x7bbad\x7d") plainDecodeErr "merhaba" []) =
      some "CHAT" ∧
    interpret_action (.ok "x \x7bbad\x7d") quotaDecodeErr "muayene yap" [] =
      .ok (prefixMockFeedback (get_mock_interpretation "muayene yap")) :=
  ⟨(interpret_failure_intent "boom" "merhaba" plainDecodeErr [] (by decide)).1 (by decide),
   ((interpret_failure_intent "quota" "paterji testi yap" plainDecodeErr [] (by decide)).2.1
     (by decide)).1,
   (interpret_failure_intent "boom" "merhaba" plainDecodeErr [] (by decide)).2.2.1
     "no json here" (by decide),
   ((interpret_failure_intent "boom" "merhaba" plainDecodeErr [] (by decide)).2.2.2
     "x \x7bbad\x7d" "\x7bbad\x7d" (by decide) rfl).1 (by decide),
   ((interpret_failure_intent "boom" "muayene yap" quotaDecodeErr [] (by decide)).2.2.2
     "x \x7bbad\x7d" "\x7bbad\x7d" (by decide) rfl).2 (by decide)⟩

/-- Counterexample to C1 as stated: a quota failure on an input containing a
clinical verb keyword makes `interpret_action` return the mock result with
`intent_type = "ACTION"`, not `CHAT`; and a JSON decode failure whose error
text contains the digits `429` in its position likewise routes to the quota
fallback and returns `ACTION`. -/
theorem interpret_quota_returns_action_cex :
    resultIntent (interpret_action (.error "quota") plainDecodeErr "paterji testi yap" []) =
      some "ACTION" ∧
    resultIntent (interpret_action (.error "quota") plainDecodeErr "paterji testi yap" []) ≠
      some "CHAT" ∧
    resultIntent (interpret_action (.ok "x \x7bbad\x7d") quotaDecodeErr "muayene yap" []) =
      some "ACTION" :=
  ⟨by decide, by decide, by decide⟩

/-! ### Claim C7 -/

/-- Claim C7 (amended): for every state whose `patient` entry (if present) is
a mapping, when the model output is malformed or absent or the model call
raises, `interpret_action` returns normally with `intent_type` in
`\x7bCHAT, ACTION\x7d`; its `explanatory_feedback` is non-empty except in the
short-reply fallback, where the feedback is the stripped raw output and the
raw output was a non-empty string under 200 characters stripping to empty. -/
theorem interpret_failure_total (mc : Except String String)
    (decodeErr : String → String) (action : String)
    (state : StateD) (hwf : patientFieldWF state = true) (hfail : llmFailureCase mc) :
    ∃ interp, interpret_action mc decodeErr action state = .ok interp ∧
      (interpIntent interp = some "CHAT" ∨ interpIntent interp = some "ACTION") ∧
      (∀ s, interpFeedback interp = some s → s = "" →
        ∃ raw, mc = .ok raw ∧ raw ≠ "" ∧ raw.length < 200 ∧ pyStrip raw = "") := by
  rcases hfail with ⟨msg, rfl⟩ | ⟨raw, rfl, hfail⟩
  · refine ⟨interpretOnExc msg action, ?_, ?_, ?_⟩
    · simp [interpret_action, hwf]
    · by_cases hq : quotaSignature msg
      · simp only [interpretOnExc, hq, if_true]
        exact prefixMock_intent_cases action
      · exact Or.inl (exc_safe msg action (by simpa using hq)).1
    · intro s hs h0
      by_cases hq : quotaSignature msg
      · simp only [interpretOnExc, hq, if_true] at hs
        exact absurd h0 (prefixMock_feedback_ne action s hs)
      · have h2 := (exc_safe msg action (by simpa using hq)).2
        rw [h2] at hs
        obtain rfl : techErrorFeedback = s := Option.some.inj hs
        exact absurd h0 (by decide)
  · unfold parsePipelineFails at hfail
    simp only [interpret_action, hwf, Bool.not_true, Bool.false_eq_true, if_false]
    cases hext : _extract_first_json_block raw with
    | none =>
      simp only [hext]
      by_cases hc : raw ≠ "" ∧ raw.length < 200
      · refine ⟨shortChatInterp raw, by simp [hc], ?_, ?_⟩
        · simp [shortChatInterp, interpIntent, dictGet]
        · intro s hs h0
          simp only [shortChatInterp, interpFeedback, dictGet] at hs
          simp at hs
          exact ⟨raw, rfl, hc.1, hc.2, by rw [hs]; exact h0⟩
      · refine ⟨interpretOnExc "Failed to extract JSON from model response." action,
          by simp [hc], Or.inl (exc_safe _ action (by decide)).1, ?_⟩
        intro s hs h0
        rw [(exc_safe _ action (by decide)).2] at hs
        obtain rfl : techErrorFeedback = s := Option.some.inj hs
        exact absurd h0 (by decide)
    | some js =>
      simp only [hext] at hfail
      simp only [hext]
      have hgen : ∀ m2 : String, quotaSignature m2 = false →
          ∃ interp, (Except.ok (interpretOnExc m2 action) : Except String Dict) = .ok interp ∧
            (interpIntent interp = some "CHAT" ∨ interpIntent interp = some "ACTION") ∧
            (∀ s, interpFeedback interp = some s → s = "" →
              ∃ raw2, (Except.ok raw : Except String String) = .ok raw2 ∧ raw2 ≠ "" ∧
                raw2.length < 200 ∧ pyStrip raw2 = "") := by
        intro m2 hm2
        refine ⟨interpretOnExc m2 action, rfl, Or.inl (exc_safe m2 action hm2).1, ?_⟩
        intro s hs h0
        rw [(exc_safe m2 action hm2).2] at hs
        obtain rfl : techErrorFeedback = s := Option.some.inj hs
        exact absurd h0 (by decide)
      cases hload : jsonLoads? js with
      | none =>
        simp only [hload]
        by_cases hq : quotaSignature (decodeErr js)
        · refine ⟨interpretOnExc (decodeErr js) action, rfl, ?_, ?_⟩
          · simp only [interpretOnExc, hq, if_true]
            exact prefixMock_intent_cases action
          · intro s hs h0
            simp only [interpretOnExc, hq, if_true] at hs
            exact absurd h0 (prefixMock_feedback_ne action s hs)
        · exact hgen (decodeErr js) (by simpa using hq)
      | some v =>
        simp only [hload] at hfail
        cases v with
        | dict data =>
          simp only [hload]
          cases hn : normalizeInterp data with
          | none => simpa only [hn] using hgen "AttributeError: no attribute strip" (by decide)
          | some interp =>
            simp only [hn] at hfail
            simp at hfail
        | none => simpa only [hload] using hgen "AttributeError: no attribute get" (by decide)
        | bool b => simpa only [hload] using hgen "AttributeError: no attribute get" (by decide)
        | int n => simpa only [hload] using hgen "AttributeError: no attribute get" (by decide)
        | str s2 => simpa only [hload] using hgen "AttributeError: no attribute get" (by decide)
        | list xs => simpa only [hload] using hgen "AttributeError: no attribute get" (by decide)

/-- Witness for C7: the amended theorem at a failed model call on a wellformed
state. -/
theorem interpret_failure_total_witness :
    ∃ interp, interpret_action (.error "down") plainDecodeErr "merhaba" [] = .ok interp ∧
      (interpIntent interp = some "CHAT" ∨ interpIntent interp = some "ACTION") ∧
      (∀ s, interpFeedback interp = some s → s = "" →
        ∃ raw, (Except.error "down" : Except String String) = .ok raw ∧ raw ≠ "" ∧
          raw.length < 200 ∧ pyStrip raw = "") :=
  interpret_failure_total (.error "down") plainDecodeErr "merhaba" [] (by decide)
    (Or.inl ⟨"down", rfl⟩)

/-- Counterexample to C7 as stated: a whitespace-only short model output
yields an empty `explanatory_feedback` (the claim requires non-empty), and a
state whose `patient` entry is a string makes `interpret_action` raise. -/
theorem interpret_failure_cex :
    resultIntent (interpret_action (.ok " ") plainDecodeErr "merhaba" []) = some "CHAT" ∧
    resultFeedback (interpret_action (.ok " ") plainDecodeErr "merhaba" []) = some "" ∧
    exceptOk (interpret_action (.ok "hello") plainDecodeErr "merhaba"
      [("patient", .str "x")]) = false :=
  ⟨by decide, by decide, by decide⟩

/-! ### Claim C8 -/

/-- Claim C8 (amended): `get_patient_response` never propagates an error; a
failed model call (or any internal raise) yields the fixed localized apology
filler, while an empty model output yields the distinct fixed localized
"didn't catch that" filler — two different strings. -/
theorem patient_reply_fillers (m : SM) (mc : Except String String) (q : String)
    (cid : PyVal) :
    ((∃ e, mc = .error e) → get_patient_response m mc q cid = roleplayErrorFiller) ∧
    (∀ t, mc = .ok t → pyStrip t = "" → exceptOk (get_case_persona m cid) = true →
      get_patient_response m mc q cid = emptyReplyFiller) := by
  constructor
  · rintro ⟨e, rfl⟩
    unfold get_patient_response
    split
    · rfl
    · rfl
  · rintro t rfl h0 hok
    unfold get_patient_response
    cases hp : get_case_persona m cid with
    | error e => rw [hp] at hok; simp [exceptOk] at hok
    | ok p => simp only [hp, h0, if_true]

/-- Witness for C8: both fillers produced at concrete calls. -/
theorem patient_reply_fillers_witness :
    get_patient_response emptySM (.error "boom") "q" (.str "c") = roleplayErrorFiller ∧
    get_patient_response emptySM (.ok "  ") "q" (.str "c") = emptyReplyFiller :=
  ⟨(patient_reply_fillers emptySM (.error "boom") "q" (.str "c")).1 ⟨"boom", rfl⟩,
   (patient_reply_fillers emptySM (.ok "  ") "q" (.str "c")).2 "  " rfl (by decide) (by decide)⟩

/-- Counterexample to C8 as stated: the empty-output filler and the failure
filler are two different strings, not "the same fixed" string. -/
theorem patient_reply_fillers_cex :
    get_patient_response emptySM (.ok "") "q" (.str "c") = emptyReplyFiller ∧
    get_patient_response emptySM (.error "x") "q" (.str "c") = roleplayErrorFiller ∧
    emptyReplyFiller ≠ roleplayErrorFiller :=
  ⟨by decide, by decide, by decide⟩

/-! ### Supporting lemmas: the state store -/

theorem dictGet_freshState_score (m : SM) :
    dictGet "current_score" (freshState m) = some (.int 0) := by
  unfold freshState withCaseName withPatient freshStateBase
  split <;> split <;> simp [dictGet]

theorem dictGet_freshState_scoreChange (m : SM) :
    dictGet "score_change" (freshState m) = Option.none := by
  unfold freshState withCaseName withPatient freshStateBase
  split <;> split <;> simp [dictGet]

theorem getState_fresh {m : SM} {sid : String} {store : Store}
    (h : storeGet sid store = Option.none) :
    getState m sid store = (freshState m, storePut sid (freshState m) store) := by
  unfold getState
  rw [h]

theorem sumScoreDeltas_cons (d : PyVal) (ds : List PyVal) :
    sumScoreDeltas (d :: ds) = scoreDelta d + sumScoreDeltas ds := by
  simp [sumScoreDeltas]

theorem applyDeltas_cons (m : SM) (sid : String) (store : Store) (d : PyVal)
    (ds : List PyVal) :
    applyDeltas m sid store (d :: ds) = applyDeltas m sid (updateState m store sid d) ds := rfl

theorem updateState_score_step (m : SM) (store : Store) (sid : String)
    (st : StateD) (n : Int) (d : PyVal)
    (hst : storeGet sid store = some st)
    (hsc : dictGet "current_score" st = some (.int n)) :
    ∃ st2, storeGet sid (updateState m store sid d) = some st2 ∧
      dictGet "current_score" st2 = some (.int (n + scoreDelta d)) ∧
      dictGet "score_change" st2 = dictGet "score_change" st := by
  cases d with
  | dict us =>
    unfold updateState
    rw [getState_present hst]
    refine ⟨_, storeGet_storePut_self _ _ _, ?_, ?_⟩
    · rw [dictGet_foldl_merge_special us _ (Or.inr rfl)]
      cases hv : dictGet "score_change" us with
      | none =>
        simp only [applyScoreChange, scoreDelta, hv]
        simpa using hsc
      | some v =>
        cases hnum : pyNum? v with
        | none =>
          simp only [applyScoreChange, scoreDelta, hv, hnum, Option.getD_none]
          simpa using hsc
        | some dd =>
          simp only [applyScoreChange, scoreDelta, hv, hnum, Option.getD_some]
          rw [dictGet_dictSet_self]
          unfold currentScoreInt
          rw [hsc]
          simp [pyNum?]
    · rw [dictGet_foldl_merge_special us _ (Or.inl rfl)]
      cases hv : dictGet "score_change" us with
      | none => simp only [applyScoreChange, hv]
      | some v =>
        cases hnum : pyNum? v with
        | none => simp only [applyScoreChange, hv, hnum]
        | some dd =>
          simp only [applyScoreChange, hv, hnum]
          exact dictGet_dictSet_ne _ _ (by decide)
  | none => exact ⟨st, hst, by simpa [scoreDelta] using hsc, rfl⟩
  | bool b => exact ⟨st, hst, by simpa [scoreDelta] using hsc, rfl⟩
  | int k => exact ⟨st, hst, by simpa [scoreDelta] using hsc, rfl⟩
  | str s => exact ⟨st, hst, by simpa [scoreDelta] using hsc, rfl⟩
  | list xs => exact ⟨st, hst, by simpa [scoreDelta] using hsc, rfl⟩

theorem deltas_score_sum (m : SM) (sid : String) :
    ∀ (ds : List PyVal) (store : Store) (st : StateD) (n : Int),
    storeGet sid store = some st →
    dictGet "current_score" st = some (.int n) →
    dictGet "score_change" st = Option.none →
    ∃ st2, storeGet sid (applyDeltas m sid store ds) = some st2 ∧
      dictGet "current_score" st2 = some (.int (n + sumScoreDeltas ds)) ∧
      dictGet "score_change" st2 = Option.none := by
  intro ds
  induction ds with
  | nil =>
    intro store st n hst hsc hscn
    exact ⟨st, hst, by simpa [sumScoreDeltas] using hsc, hscn⟩
  | cons d rest ih =>
    intro store st n hst hsc hscn
    obtain ⟨st2, h1, h2, h3⟩ := updateState_score_step m store sid st n d hst hsc
    rw [hscn] at h3
    obtain ⟨st3, h4, h5, h6⟩ := ih (updateState m store sid d) st2 _ h1 h2 h3
    refine ⟨st3, by rw [applyDeltas_cons]; exact h4, ?_, h6⟩
    rw [h5, sumScoreDeltas_cons, add_assoc]

theorem reachable_invariant (m : SM) (sid : String) (store : Store)
    (hreach : Reachable m sid store) :
    ∃ st n, storeGet sid store = some st ∧
      dictGet "current_score" st = some (.int n) ∧
      dictGet "score_change" st = Option.none := by
  obtain ⟨store0, ds, h0, rfl⟩ := hreach
  obtain ⟨st2, h1, h2, h3⟩ := deltas_score_sum m sid ds (getState m sid store0).2
    (freshState m) 0
    (by rw [getState_fresh h0]; exact storeGet_storePut_self _ _ _)
    (dictGet_freshState_score m)
    (dictGet_freshState_scoreChange m)
  exact ⟨st2, _, h1, h2, h3⟩

theorem mergeField_list_extend {k : String} {st : StateD} {l : List PyVal}
    (hk1 : k ≠ "score_change") (hk2 : k ≠ "current_score")
    (hk : dictGet k st = some (.list l)) (ld : List PyVal) :
    mergeField st (k, PyVal.list ld) = dictSet k (PyVal.list (l ++ ld)) st := by
  have hcond : ¬(k = "score_change" ∨ k = "current_score") := not_or.mpr ⟨hk1, hk2⟩
  simp only [mergeField, hcond, if_false, hk]

theorem updateState_list_extend (m : SM) (store : Store) (sid : String)
    (st : StateD) (k : String) (l : List PyVal) (d : Dict) (ld : List PyVal)
    (hst : storeGet sid store = some st)
    (hk : dictGet k st = some (.list l))
    (hd : dictGet k d = some (.list ld))
    (hnd : (d.map Prod.fst).Nodup)
    (hk1 : k ≠ "score_change") (hk2 : k ≠ "current_score") :
    ∃ st2, storeGet sid (updateState m store sid (.dict d)) = some st2 ∧
      dictGet k st2 = some (.list (l ++ ld)) := by
  obtain ⟨us1, us2, hdeq, hne1⟩ := dictGet_split hd
  subst hdeq
  have hne2 : ∀ kv ∈ us2, kv.1 ≠ k := by
    rw [List.map_append, List.map_cons] at hnd
    have hdisj := (List.nodup_append.mp hnd).2.1
    have hnotmem := (List.nodup_cons.mp hdisj).1
    intro kv hkv he
    have hmem := List.mem_map_of_mem Prod.fst hkv
    rw [he] at hmem
    exact hnotmem hmem
  have hup : updateState m store sid (.dict (us1 ++ (k, PyVal.list ld) :: us2)) =
      storePut sid ((us1 ++ (k, PyVal.list ld) :: us2).foldl mergeField
        (applyScoreChange (us1 ++ (k, PyVal.list ld) :: us2) st)) store := by
    unfold updateState
    rw [getState_present hst]
  rw [hup]
  refine ⟨_, storeGet_storePut_self _ _ _, ?_⟩
  have hsc : dictGet k (applyScoreChange (us1 ++ (k, PyVal.list ld) :: us2) st) =
      some (.list l) := by
    cases hv : dictGet "score_change" (us1 ++ (k, PyVal.list ld) :: us2) with
    | none => simp only [applyScoreChange, hv]; exact hk
    | some v =>
      cases hnum : pyNum? v with
      | none => simp only [applyScoreChange, hv, hnum]; exact hk
      | some dd =>
        simp only [applyScoreChange, hv, hnum]
        rw [dictGet_dictSet_ne _ _ (Ne.symm hk2)]
        exact hk
  have hmid : dictGet k (us1.foldl mergeField
      (applyScoreChange (us1 ++ (k, PyVal.list ld) :: us2) st)) = some (.list l) := by
    rw [dictGet_foldl_merge_ne us1 _ hne1]
    exact hsc
  rw [List.foldl_append, List.foldl_cons, dictGet_foldl_merge_ne us2 _ hne2,
    mergeField_list_extend hk1 hk2 hmid, dictGet_dictSet_self]

/-! ### Claim C2 -/

/-- Claim C2: `current_score` starts at 0 for a new learner and, across any
sequence of deltas, equals the sum of their numeric `score_change` values —
a literal `current_score` key in a delta never changes it (only
`score_change` is read), and a delta with `score_change = s` increases the
score by exactly `s`. -/
theorem update_state_score_additive (m : SM) (_hm : caseHeadWF m = true) :
    (∀ sid store0 ds, storeGet sid store0 = Option.none →
      ∃ st, storeGet sid (applyDeltas m sid (getState m sid store0).2 ds) = some st ∧
        dictGet "current_score" st = some (.int (sumScoreDeltas ds))) ∧
    (∀ sid store st n d, storeGet sid store = some st →
      dictGet "current_score" st = some (.int n) →
      ∃ st2, storeGet sid (updateState m store sid d) = some st2 ∧
        dictGet "current_score" st2 = some (.int (n + scoreDelta d))) := by
  constructor
  · intro sid store0 ds h0
    obtain ⟨st, h1, h2, _⟩ := deltas_score_sum m sid ds (getState m sid store0).2
      (freshState m) 0
      (by rw [getState_fresh h0]; exact storeGet_storePut_self _ _ _)
      (dictGet_freshState_score m)
      (dictGet_freshState_scoreChange m)
    exact ⟨st, h1, by simpa using h2⟩
  · intro sid store st n d hst hsc
    obtain ⟨st2, h1, h2, _⟩ := updateState_score_step m store sid st n d hst hsc
    exact ⟨st2, h1, h2⟩

/-- Witness for C2: both parts at concrete inputs — a fresh learner receiving
deltas `score_change = 5` (with a `current_score: 99` key that is ignored),
a non-dict delta, and `score_change = True`, ending at score 6; and a single
update adding 4 to a stored score of 3. -/
theorem update_state_score_additive_witness :
    (∃ st, storeGet "s1" (applyDeltas emptySM "s1" (getState emptySM "s1" []).2
        [.dict [("score_change", .int 5), ("current_score", .int 99)], .str "junk",
         .dict [("score_change", .bool true)]]) = some st ∧
      dictGet "current_score" st = some (.int 6)) ∧
    (∃ st2, storeGet "s1" (updateState emptySM [("s1", [("current_score", .int 3)])] "s1"
        (.dict [("score_change", .int 4)])) = some st2 ∧
      dictGet "current_score" st2 = some (.int 7)) :=
  ⟨(update_state_score_additive emptySM (by decide)).1 "s1" []
      [.dict [("score_change", .int 5), ("current_score", .int 99)], .str "junk",
       .dict [("score_change", .bool true)]] rfl,
   (update_state_score_additive emptySM (by decide)).2 "s1"
      [("s1", [("current_score", .int 3)])] [("current_score", .int 3)] 3
      (.dict [("score_change", .int 4)]) rfl rfl⟩

/-! ### Claim C3 -/

/-- Claim C3: in any reachable learner state, a key holding a list is merged
by extension — after two successive deltas carrying lists at that key, the
stored list is the original elements, then the first delta's, then the
second's, in order. -/
theorem merge_extends_lists (m : SM) (sid : String) (store : Store) (st : StateD)
    (k : String) (l l1 l2 : List PyVal) (d1 d2 : Dict)
    (_hm : caseHeadWF m = true)
    (hreach : Reachable m sid store)
    (hst : storeGet sid store = some st)
    (hk : dictGet k st = some (.list l))
    (hd1 : dictGet k d1 = some (.list l1)) (hn1 : (d1.map Prod.fst).Nodup)
    (hd2 : dictGet k d2 = some (.list l2)) (hn2 : (d2.map Prod.fst).Nodup) :
    ∃ st2,
      storeGet sid (updateState m (updateState m store sid (.dict d1)) sid (.dict d2)) =
        some st2 ∧
      dictGet k st2 = some (.list (l ++ l1 ++ l2)) := by
  obtain ⟨st0, n0, hst0, hcs0, hsc0⟩ := reachable_invariant m sid store hreach
  have heq : some st = some st0 := hst ▸ hst0
  obtain rfl : st = st0 := Option.some.inj heq
  have hk1 : k ≠ "score_change" := by
    intro he
    rw [he, hsc0] at hk
    exact Option.noConfusion hk
  have hk2 : k ≠ "current_score" := by
    intro he
    rw [he, hcs0] at hk
    exact PyVal.noConfusion (Option.some.inj hk)
  obtain ⟨stA, hA, hkA⟩ :=
    updateState_list_extend m store sid st k l d1 l1 hst hk hd1 hn1 hk1 hk2
  obtain ⟨stB, hB, hkB⟩ :=
    updateState_list_extend m (updateState m store sid (.dict d1)) sid stA k (l ++ l1)
      d2 l2 hA hkA hd2 hn2 hk1 hk2
  exact ⟨stB, hB, hkB⟩

/-- Witness for C3: a fresh learner receives `revealed_findings = ["a"]`, then
two more deltas append `["b"]` and `["c"]`, yielding `["a","b","c"]`. -/
theorem merge_extends_lists_witness :
    ∃ st2,
      storeGet "s1" (updateState emptySM (updateState emptySM
          (applyDeltas emptySM "s1" (getState emptySM "s1" []).2
            [.dict [("revealed_findings", .list [.str "a"])]])
          "s1" (.dict [("revealed_findings", .list [.str "b"])]))
        "s1" (.dict [("revealed_findings", .list [.str "c"])])) = some st2 ∧
      dictGet "revealed_findings" st2 =
        some (.list [.str "a", .str "b", .str "c"]) :=
  merge_extends_lists emptySM "s1"
    (applyDeltas emptySM "s1" (getState emptySM "s1" []).2
      [.dict [("revealed_findings", .list [.str "a"])]])
    [("case_id", .str "olp_001"), ("current_score", .int 0),
     ("revealed_findings", .list [.str "a"])]
    "revealed_findings" [.str "a"] [.str "b"] [.str "c"]
    [("revealed_findings", .list [.str "b"])] [("revealed_findings", .list [.str "c"])]
    (by decide)
    ⟨[], [.dict [("revealed_findings", .list [.str "a"])]], rfl, rfl⟩
    rfl rfl rfl (by decide) rfl (by decide)

/-! ### Supporting lemmas: manager construction and fresh states -/

theorem mk_default_of_empty {parsed : Option PyVal} {m : SM}
    (hm : mkScenarioManager parsed = some m) (hempty : m.caseData = []) :
    m.defaultCaseId = "olp_001" := by
  cases parsed with
  | none =>
    unfold mkScenarioManager at hm
    obtain rfl : SM.mk [] "olp_001" = m := Option.some.inj hm
    rfl
  | some data =>
    unfold mkScenarioManager at hm
    cases hcat : catalogOf data with
    | nil =>
      simp only [hcat] at hm
      obtain rfl : SM.mk [] "olp_001" = m := Option.some.inj hm
      rfl
    | cons c rest =>
      simp only [hcat] at hm
      cases c with
      | dict fc =>
        obtain rfl : SM.mk (PyVal.dict fc :: rest) (defaultIdOf fc) = m := Option.some.inj hm
        simp at hempty
      | none => exact Option.noConfusion hm
      | bool b => exact Option.noConfusion hm
      | int n => exact Option.noConfusion hm
      | str s => exact Option.noConfusion hm
      | list xs => exact Option.noConfusion hm

theorem firstCaseD_of_head {m : SM} {fc : Dict}
    (hhead : m.caseData.head? = some (.dict fc)) : firstCaseD m = fc := by
  unfold firstCaseD
  cases hcd : m.caseData with
  | nil => rw [hcd] at hhead; exact Option.noConfusion hhead
  | cons c0 rest =>
    rw [hcd] at hhead
    simp only [List.head?_cons] at hhead
    obtain rfl : c0 = PyVal.dict fc := Option.some.inj hhead
    rfl

/-! ### Claim C9 -/

/-- Claim C9: for an unseen learner id, `get_state` seeds `current_score = 0`
and `case_id` from the first catalog entry (the fixed default `"olp_001"` when
the catalog is empty), copying the first entry's patient block and name into
the new state when present. -/
theorem get_state_seeds_new_learner (parsed : Option PyVal) (m : SM)
    (hm : mkScenarioManager parsed = some m)
    (sid : String) (store : Store) (hnew : storeGet sid store = Option.none) :
    dictGet "current_score" (getState m sid store).1 = some (.int 0) ∧
    (m.caseData = [] →
      dictGet "case_id" (getState m sid store).1 = some (.str "olp_001")) ∧
    (∀ fc c, m.caseData.head? = some (.dict fc) → dictGet "case_id" fc = some (.str c) →
      c ≠ "" → dictGet "case_id" (getState m sid store).1 = some (.str c)) ∧
    (∀ fc p, m.caseData.head? = some (.dict fc) → dictGet "patient" fc = some (.dict p) →
      dictGet "patient" (getState m sid store).1 = some (.dict p)) ∧
    (∀ fc n, m.caseData.head? = some (.dict fc) → dictGet "name" fc = some (.str n) →
      dictGet "case_name" (getState m sid store).1 = some (.str n)) := by
  rw [getState_fresh hnew]
  refine ⟨dictGet_freshState_score m, ?_, ?_, ?_, ?_⟩
  · intro hempty
    have hdef := mk_default_of_empty hm hempty
    have hfc : firstCaseD m = [] := by
      unfold firstCaseD
      rw [hempty]
    simp [freshState, withCaseName, withPatient, freshStateBase, freshCaseIdVal,
      hfc, hdef, dictGet]
  · intro fc c hhead hcid hcne
    have hfc := firstCaseD_of_head hhead
    have hval : freshCaseIdVal m = .str c := by
      simp [freshCaseIdVal, hfc, hcid, pyTruthy, hcne]
    simp only [freshState, withCaseName, withPatient, freshStateBase, hval, hfc]
    split <;> split <;> simp [dictGet]
  · intro fc p hhead hp
    have hfc := firstCaseD_of_head hhead
    simp only [freshState, withCaseName, withPatient, freshStateBase, hfc, hp]
    split <;> simp [dictGet]
  · intro fc n hhead hn
    have hfc := firstCaseD_of_head hhead
    simp only [freshState, withCaseName, withPatient, freshStateBase, hfc, hn]
    split <;> simp [dictGet]

/-- Witness for C9: the single-case catalog `exParsed` seeds a fresh state
with score 0, case id `olp_001`, the patient block, and the case name. -/
theorem get_state_seeds_new_learner_witness :
    dictGet "current_score" (getState exSM "s1" []).1 = some (.int 0) ∧
    dictGet "case_id" (getState exSM "s1" []).1 = some (.str "olp_001") ∧
    dictGet "patient" (getState exSM "s1" []).1 =
      some (.dict [("age", .int 62)]) ∧
    dictGet "case_name" (getState exSM "s1" []).1 = some (.str "OLP Vakasi") :=
  have h := get_state_seeds_new_learner (some exParsed) exSM rfl "s1" [] rfl
  ⟨h.1,
   h.2.2.1 exCase "olp_001" rfl rfl (by decide),
   h.2.2.2.1 exCase [("age", .int 62)] rfl rfl,
   h.2.2.2.2 exCase "OLP Vakasi" rfl rfl⟩

/-! ### Supporting lemmas: the per-turn pipeline -/

theorem storeGet_initStore (m : SM) (sid : String) (cid? : Option String)
    (store : Store) :
    storeGet sid (initStore m sid cid? store) = some (initState m sid cid? store) := by
  cases cid? with
  | some c => simp [initStore, initState, storeGet_storePut_self]
  | none => simp [initStore, initState, storeGet_getState]

theorem updateState_dict_eq (m : SM) (store : Store) (sid : String) (us : Dict)
    (st : StateD) (hst : storeGet sid store = some st) :
    updateState m store sid (.dict us) =
      storePut sid (us.foldl mergeField (applyScoreChange us st)) store := by
  unfold updateState
  rw [getState_present hst]

theorem interpret_action_isOk (mc : Except String String)
    (decodeErr : String → String) (action : String)
    (st : StateD) (hwf : patientFieldWF st = true) :
    ∃ i, interpret_action mc decodeErr action st = .ok i := by
  unfold interpret_action
  rw [hwf]
  simp only [Bool.not_true, Bool.false_eq_true, if_false]
  cases mc with
  | error msg => exact ⟨_, rfl⟩
  | ok raw =>
    cases hext : _extract_first_json_block raw with
    | none =>
      simp only [hext]
      by_cases hc : raw ≠ "" ∧ raw.length < 200
      · rw [if_pos hc]
        exact ⟨_, rfl⟩
      · rw [if_neg hc]
        exact ⟨_, rfl⟩
    | some js =>
      simp only [hext]
      cases hload : jsonLoads? js with
      | none => simp only [hload]; exact ⟨_, rfl⟩
      | some v =>
        cases v with
        | dict data =>
          simp only [hload]
          cases hn : normalizeInterp data with
          | none => simp only [hn]; exact ⟨_, rfl⟩
          | some interp => simp only [hn]; exact ⟨_, rfl⟩
        | none => simp only [hload]; exact ⟨_, rfl⟩
        | bool b => simp only [hload]; exact ⟨_, rfl⟩
        | int n => simp only [hload]; exact ⟨_, rfl⟩
        | str s => simp only [hload]; exact ⟨_, rfl⟩
        | list xs => simp only [hload]; exact ⟨_, rfl⟩

theorem patientBackground_skips (m : SM) (o : Oracles) (store2 : Store)
    (sid raw : String) (state : StateD) (cid : PyVal) (ad : Dict)
    (heval : ∀ c i, o.evaluateAction c i = Except.ok (.dict ad))
    (h1 : dictGet "state_updates" ad = Option.none)
    (h2 : dictGet "state_update" ad = Option.none)
    (hadf : ad.isEmpty = false) :
    (patientBackground m o store2 sid raw state cid).2.2 = store2 := by
  unfold patientBackground
  cases hint : interpret_action o.interpretCall o.decodeErr raw state with
  | error e => simp [hint]
  | ok ibg =>
    simp only [hint, heval]
    simp [pyOr, pyTruthy, hadf, pyGetA, h1, h2, isDict]

/-! ### Claim C4 -/

/-- Claim C4: in patient mode, the turn's `final_feedback` is always the
roleplay reply produced by `get_patient_response` — whatever the background
interpretation, rule evaluation, silent evaluation, or state merge do,
including raising — and never the Interpretation's feedback. -/
theorem patient_mode_feedback_is_roleplay (m : SM) (o : Oracles) (store : Store)
    (sid raw : String) (cid? : Option String) (_hm : caseHeadWF m = true) :
    (process_student_input m o store sid raw cid? true).map (fun rs => rs.1.final_feedback) =
      .ok (get_patient_response m o.patientCall raw (turnCaseId m sid cid? store)) := rfl

/-- Witness for C4: the concrete one-case manager with a failing rule
evaluator still returns the roleplay reply as the final feedback. -/
theorem patient_mode_feedback_is_roleplay_witness :
    (process_student_input exSM exOracles [] "s1" "Nerenizde agri var?" Option.none true).map
        (fun rs => rs.1.final_feedback) =
      .ok (get_patient_response exSM exOracles.patientCall "Nerenizde agri var?"
        (turnCaseId exSM "s1" Option.none [])) :=
  patient_mode_feedback_is_roleplay exSM exOracles [] "s1" "Nerenizde agri var?"
    Option.none (by decide)

/-! ### Claim C10 -/

theorem process_patient_store (m : SM) (o : Oracles) (store : Store)
    (sid raw : String) (cid? : Option String) :
    (process_student_input m o store sid raw cid? true).map (fun rs => rs.2) =
      .ok (getState m sid
        (patientBackground m o (initStore m sid cid? store) sid raw
          (initState m sid cid? store) (turnCaseId m sid cid? store)).2.2).2 := rfl

/-- Claim C10: in patient mode, when the assessment carries a state delta only
under `new_state_data` (and `state_updates`/`state_update` are absent), the
merge step never calls `update_state` and the stored state is exactly the one
after the initial load — unlike educator mode, which probes `new_state_data`
as the third key and applies the delta. -/
theorem patient_mode_skips_new_state_data (m : SM) (o : Oracles) (store : Store)
    (sid raw : String) (cid? : Option String) (ad d : Dict)
    (_hm : caseHeadWF m = true)
    (heval : ∀ c i, o.evaluateAction c i = Except.ok (.dict ad))
    (h1 : dictGet "state_updates" ad = Option.none)
    (h2 : dictGet "state_update" ad = Option.none)
    (h3 : dictGet "new_state_data" ad = some (.dict d))
    (h4 : d ≠ []) :
    ((process_student_input m o store sid raw cid? true).map (fun rs => rs.2) =
      .ok (initStore m sid cid? store)) ∧
    (patientFieldWF (initState m sid cid? store) = true →
      (process_student_input m o store sid raw cid? false).map (fun rs => rs.2) =
        .ok (updateState m (initStore m sid cid? store) sid (.dict d))) := by
  have hadf : ad.isEmpty = false := by
    cases ad with
    | nil => simp [dictGet] at h3
    | cons hd tl => rfl
  have hdf : d.isEmpty = false := by
    cases d with
    | nil => exact absurd rfl h4
    | cons hd tl => rfl
  constructor
  · rw [process_patient_store,
      patientBackground_skips m o (initStore m sid cid? store) sid raw
        (initState m sid cid? store) (turnCaseId m sid cid? store) ad heval h1 h2 hadf,
      getState_present (storeGet_initStore m sid cid? store)]
  · intro hwf
    obtain ⟨i, hi⟩ := interpret_action_isOk o.interpretCall o.decodeErr raw
      (initState m sid cid? store) hwf
    have hst2 := storeGet_initStore m sid cid? store
    have hupd := updateState_dict_eq m (initStore m sid cid? store) sid d
      (initState m sid cid? store) hst2
    have hst3 : storeGet sid (updateState m (initStore m sid cid? store) sid (.dict d)) =
        some (d.foldl mergeField (applyScoreChange d (initState m sid cid? store))) := by
      rw [hupd]
      exact storeGet_storePut_self _ _ _
    simp only [process_student_input, Bool.false_eq_true, if_false, hi, heval]
    simp only [pyOr, pyTruthy, hadf, Bool.not_false, if_true, pyGetA, h1, h2, h3,
      Option.getD_none, Option.getD_some, isDict, hdf, Bool.and_true, Bool.and_false,
      Bool.false_eq_true, if_false, Bool.true_and, Bool.not_true]
    rw [getState_present hst3]
    rfl

/-- Witness for C10: with an assessment carrying a delta only under
`new_state_data`, the patient-mode store is the post-load store, while the
educator-mode store has the delta applied. -/
theorem patient_mode_skips_new_state_data_witness :
    ((process_student_input exSM exOracles10 [] "s1" "muayene" Option.none true).map
        (fun rs => rs.2) = .ok (initStore exSM "s1" Option.none [])) ∧
    ((process_student_input exSM exOracles10 [] "s1" "muayene" Option.none false).map
        (fun rs => rs.2) =
      .ok (updateState exSM (initStore exSM "s1" Option.none []) "s1" (.dict exDelta))) :=
  have h := patient_mode_skips_new_state_data exSM exOracles10 [] "s1" "muayene"
    Option.none exAd exDelta (by decide) (fun _ _ => rfl) rfl rfl rfl (by simp [exDelta])
  ⟨h.1, h.2 (by decide)⟩

end DentalEdu
